import Mathlib

/-!
# net9p: the network-as-files server

A shallow embedding of the connection slot (`conn.go`), the family handler
(`tcpudp.go`) and the connection-service file (`cs.go`).

Conventions of the embedding

* A Go `string` and a Go `[]byte` are both lists of bytes (`GoString`).
* The slot mutex is a boolean field of the slot: `true` while it is held.  A
  `Lock` on a held mutex makes no progress, which an operation reports as
  `Ret.blocked`.
* A run-time panic (an index out of range) is reported as `Ret.panicked`;
  deferred unlocks have run by then.
* Calls into the operating system (`net.Dial`, `net.Listen`, `Accept`,
  `net.LookupPort`, `net.LookupHost`) are answered by an `OS` record given to
  the operation, and recorded in the operation's trace.  `log.Printf` lines are
  not modelled.
-/

set_option linter.dupNamespace false

namespace Net9p

deriving instance DecidableEq for Except

/-! ## Strings and the Go library functions the code calls -/

/-- A Go string: an immutable sequence of bytes. -/
abbrev GoString := List UInt8

/-- UTF-8 encoding of one code point. -/
def utf8Encode (c : Char) : List UInt8 :=
  let n := c.toNat
  if n < 0x80 then [n.toUInt8]
  else if n < 0x800 then [(0xC0 + n / 0x40).toUInt8, (0x80 + n % 0x40).toUInt8]
  else if n < 0x10000 then
    [(0xE0 + n / 0x1000).toUInt8, (0x80 + n / 0x40 % 0x40).toUInt8, (0x80 + n % 0x40).toUInt8]
  else
    [(0xF0 + n / 0x40000).toUInt8, (0x80 + n / 0x1000 % 0x40).toUInt8,
     (0x80 + n / 0x40 % 0x40).toUInt8, (0x80 + n % 0x40).toUInt8]

/-- A string literal of the source, as the bytes Go stores for it. -/
def str (s : String) : GoString := s.toList.flatMap utf8Encode

/-- The byte of the separator in `strings.Split(s, " ")`. -/
def bSpace : UInt8 := 32

/-- The byte of the separator in `strings.Split(s, "!")`. -/
def bBang : UInt8 := 33

/-- Model of `strings.Split(s, sep)` for a separator of one byte: the pieces of
`s` between the occurrences of `sep`; there is always at least one piece. -/
def Split (s : GoString) (sep : UInt8) : List GoString :=
  match s with
  | [] => [[]]
  | b :: rest =>
    if b = sep then [] :: Split rest sep
    else
      match Split rest sep with
      | [] => [[b]]
      | piece :: pieces => (b :: piece) :: pieces

/-- UTF-8 encodings of the code points for which `unicode.IsSpace` holds:
TAB, LF, VT, FF, CR, SPACE, U+0085, U+00A0, U+1680, U+2000 to U+200A, U+2028,
U+2029, U+202F, U+205F, U+3000. -/
def spaceRunes : List GoString :=
  [[0x09], [0x0A], [0x0B], [0x0C], [0x0D], [0x20], [0xC2, 0x85], [0xC2, 0xA0],
   [0xE1, 0x9A, 0x80],
   [0xE2, 0x80, 0x80], [0xE2, 0x80, 0x81], [0xE2, 0x80, 0x82], [0xE2, 0x80, 0x83],
   [0xE2, 0x80, 0x84], [0xE2, 0x80, 0x85], [0xE2, 0x80, 0x86], [0xE2, 0x80, 0x87],
   [0xE2, 0x80, 0x88], [0xE2, 0x80, 0x89], [0xE2, 0x80, 0x8A],
   [0xE2, 0x80, 0xA8], [0xE2, 0x80, 0xA9], [0xE2, 0x80, 0xAF], [0xE2, 0x81, 0x9F],
   [0xE3, 0x80, 0x80]]

/-- Length of the white-space rune that `s` starts with, `0` when it starts
with none. -/
def leadingSpace (s : GoString) : Nat :=
  match spaceRunes.find? (fun e => e.isPrefixOf s) with
  | some e => e.length
  | none => 0

/-- Length of the white-space rune that `s` ends with, `0` when it ends with
none. -/
def trailingSpace (s : GoString) : Nat :=
  match spaceRunes.find? (fun e => e.reverse.isPrefixOf s.reverse) with
  | some e => e.length
  | none => 0

/-- Drops leading white-space runes, at most `fuel` of them. -/
def trimLeftSpace : Nat → GoString → GoString
  | 0, s => s
  | fuel + 1, s =>
    match leadingSpace s with
    | 0 => s
    | k + 1 => trimLeftSpace fuel (s.drop (k + 1))

/-- Drops trailing white-space runes, at most `fuel` of them. -/
def trimRightSpace : Nat → GoString → GoString
  | 0, s => s
  | fuel + 1, s =>
    match trailingSpace s with
    | 0 => s
    | k + 1 => trimRightSpace fuel (s.take (s.length - (k + 1)))

/-- Model of `strings.TrimSpace`: `s` without its leading and trailing
white-space runes (the fuel `s.length` is never used up, as every step removes
at least one byte). -/
def TrimSpace (s : GoString) : GoString :=
  let t := trimLeftSpace s.length s
  trimRightSpace t.length t

/-- The two kinds of `*strconv.NumError`. -/
inductive NumErrKind
  | ErrSyntax
  | ErrRange
  deriving DecidableEq, Repr

/-- Go error values. -/
inductive Error
  /-- An error made by `errors.New` or `fmt.Errorf`, with its message. -/
  | text (msg : GoString)
  /-- A `*strconv.NumError` of `strconv.ParseUint` for the text `input`. -/
  | num (input : GoString) (kind : NumErrKind)
  /-- An error returned by the operating system. -/
  | os (code : Nat)
  deriving DecidableEq, Repr

/-- The constant `math.MaxUint64`. -/
def maxUint64 : Nat := 2 ^ 64 - 1

/-- The loop of `strconv.ParseUint(s, 10, 64)` over the bytes still to read,
`n` being the value read so far. -/
def parseUintLoop (s0 : GoString) : GoString → Nat → Except Error Nat
  | [], n => .ok n
  | c :: rest, n =>
    if 48 ≤ c.toNat ∧ c.toNat ≤ 57 then
      let d := c.toNat - 48
      if n ≥ maxUint64 / 10 + 1 then .error (.num s0 .ErrRange)
      else
        let n10 := n * 10 % 2 ^ 64
        let n1 := (n10 + d) % 2 ^ 64
        if n1 < n10 ∨ n1 > maxUint64 then .error (.num s0 .ErrRange)
        else parseUintLoop s0 rest n1
    else .error (.num s0 .ErrSyntax)

/-- Model of `strconv.ParseUint(s, 10, 64)`. -/
def ParseUint (s : GoString) : Except Error Nat :=
  if s = [] then .error (.num s .ErrSyntax) else parseUintLoop s s 0

/-- The verb `%d` of `fmt.Sprintf` for an unsigned integer. -/
def fmtUint (n : Nat) : GoString := (Nat.toDigits 10 n).map (fun c => c.toNat.toUInt8)

/-- The verb `%d` of `fmt.Sprintf` for an `int`. -/
def fmtInt (i : Int) : GoString :=
  if i < 0 then 45 :: fmtUint i.natAbs else fmtUint i.natAbs

/-! ## Sockets, listeners and the operating system -/

/-- A non-nil `net.Conn`. -/
structure NetConn where
  /-- Identity of the OS socket. -/
  id : Nat
  /-- The dynamic type is `*net.TCPConn`. -/
  isTCP : Bool
  /-- Whether `Close` has been called on it. -/
  closed : Bool
  deriving DecidableEq, Repr

/-- A non-nil `net.Listener`. -/
structure Listener where
  /-- Identity of the OS listener. -/
  id : Nat
  deriving DecidableEq, Repr

/-- The answers of the operating system to the calls the code makes.  A call
that fails returns a nil value together with the error. -/
structure OS where
  /-- Answer of `net.Dial(network, address)`. -/
  Dial : GoString → GoString → Except Error NetConn
  /-- Answer of `net.Listen(network, address)`. -/
  Listen : GoString → GoString → Except Error Listener
  /-- Answer of `Listener.Accept()`. -/
  Accept : Listener → Except Error NetConn
  /-- Answer of `net.LookupPort(network, service)`. -/
  LookupPort : GoString → GoString → Except Error Int
  /-- Answer of `net.LookupHost(host)`. -/
  LookupHost : GoString → Except Error (List GoString)

/-- The calls an operation makes that are visible outside the slot. -/
inductive Event
  | Dial (network address : GoString)
  | Listen (network address : GoString)
  | Accept (l : Listener)
  | Close (sock : NetConn)
  | SetKeepAlivePeriod (sock : NetConn) (period : Int)
  | SetKeepAlive (sock : NetConn) (keepalive : Bool)
  | LookupPort (network service : GoString)
  | LookupHost (host : GoString)
  /-- An invocation of `conn.hangup`. -/
  | hangup
  deriving DecidableEq, Repr

/-- How a call ends. -/
inductive Ret (α : Type)
  /-- The call returns `r`. -/
  | returned (r : α)
  /-- The call panics. -/
  | panicked
  /-- The call waits for ever on a mutex that is held. -/
  | blocked
  deriving DecidableEq, Repr

/-! ## The connection slot (`conn.go`) -/

def stateEstablished : GoString := str "Established"

def stateAnnouncing : GoString := str "Announcing"

def stateClosed : GoString := str "Closed"

/-- The struct `conn`. -/
structure conn where
  /-- The embedded `sync.Mutex`: `true` while held. -/
  Mutex : Bool
  /-- The socket; `none` is the nil interface. -/
  conn : Option NetConn
  /-- The listener; `none` is the nil interface. -/
  listener : Option Listener
  network : GoString
  address : GoString
  connectPending : Bool
  /-- A `uint32`: arithmetic on it is modulo 4294967296. -/
  owned : Nat
  state : GoString
  deriving DecidableEq, Repr

/-- The slot a call leaves behind, the OS calls it made, and how it ended. -/
structure Outcome (α : Type) where
  slot : Net9p.conn
  trace : List Event
  ret : Ret α

/-- The method `Unlock` of the embedded mutex. -/
def conn.Unlock (c : Net9p.conn) : Net9p.conn := { c with Mutex := false }

/-- The method `conn.hangup`. -/
def conn.hangup (c : Net9p.conn) : Outcome Unit :=
  if c.Mutex then ⟨c, [.hangup], .blocked⟩
  else
    let c := { c with Mutex := true }
    match c.conn with
    | some sock =>
      ⟨{ c with conn := some { sock with closed := true }, state := stateClosed }.Unlock,
        [.hangup, .Close sock], .returned ()⟩
    | none => ⟨c.Unlock, [.hangup], .returned ()⟩

/-- Conversion of a `uint64` bit pattern to `int64`. -/
def toInt64 (n : Nat) : Int :=
  if n % 2 ^ 64 < 2 ^ 63 then ((n % 2 ^ 64 : Nat) : Int) else ((n % 2 ^ 64 : Nat) : Int) - 2 ^ 64

/-- A return of `conn.command` with the error `e`; the deferred `Unlock` runs. -/
def conn.fail (c : Net9p.conn) (e : Error) : Outcome (Option Error) :=
  ⟨c.Unlock, [], .returned (some e)⟩

/-- The method `conn.command`. -/
def conn.command (os : OS) (c : Net9p.conn) (s : GoString) : Outcome (Option Error) :=
  if c.Mutex then ⟨c, [], .blocked⟩
  else
    let c := { c with Mutex := true }
    let s := TrimSpace s
    match Split s bSpace with
    | [] => ⟨c.Unlock, [], .panicked⟩
    | cmd :: args =>
      if cmd = str "connect" then
        match args with
        | [] => ⟨c.Unlock, [], .panicked⟩
        | arg0 :: _ =>
          let addr := Split arg0 bBang
          if args.length = 2 then
            c.fail (.text (str "manual local port assignment not supported"))
          else
            match addr with
            | [host, portText] =>
              match ParseUint portText with
              | .error err => c.fail err
              | .ok port =>
                if port > 65535 then c.fail (.text (str "invalid port: " ++ portText))
                else
                  ⟨{ c with address := host ++ str ":" ++ fmtUint port,
                            connectPending := true }.Unlock, [], .returned none⟩
            | _ => c.fail (.text (str "invalid address"))
      else if cmd = str "announce" then
        match args with
        | [] => ⟨c.Unlock, [], .panicked⟩
        | arg0 :: _ =>
          let arg0 := if arg0 = str "*" then str "0" else arg0
          match ParseUint arg0 with
          | .error err => c.fail err
          | .ok port =>
            if port > 65535 then c.fail (.text (str "invalid port: " ++ arg0))
            else
              let c := { c with address := str ":" ++ fmtUint port }
              let listener :=
                match os.Listen c.network c.address with
                | .ok l => some l
                | .error _ => none
              ⟨{ c with listener := listener, state := stateAnnouncing }.Unlock,
                [.Listen c.network c.address], .returned none⟩
      else if cmd = str "accept" then ⟨c.Unlock, [], .returned none⟩
      else if cmd = str "keepalive" then
        match c.conn with
        | none => c.fail (.text (str "keepalive only valid on tcp connections"))
        | some tcp =>
          if tcp.isTCP then
            match args with
            | [] =>
              let period : Int := 30 * 1000000000
              ⟨c.Unlock, [.SetKeepAlivePeriod tcp period, .SetKeepAlive tcp true],
                .returned none⟩
            | [arg0] =>
              match ParseUint arg0 with
              | .error err => c.fail err
              | .ok d =>
                let period : Int := toInt64 (d * 1000000)
                ⟨c.Unlock, [.SetKeepAlivePeriod tcp period, .SetKeepAlive tcp true],
                  .returned none⟩
            | _ => c.fail (.text (str "invalid arguments"))
          else c.fail (.text (str "keepalive only valid on tcp connections"))
      else if cmd = str "hangup" ∨ cmd = str "reject" then
        let o := c.hangup
        match o.ret with
        | .returned _ => ⟨o.slot.Unlock, o.trace, .returned none⟩
        | .panicked => ⟨o.slot.Unlock, o.trace, .panicked⟩
        | .blocked => ⟨o.slot, o.trace, .blocked⟩
      else c.fail (.text (str "Unimplemented command received: " ++ s))

/-- The method `conn.dial`. -/
def conn.dial (os : OS) (c : Net9p.conn) : Outcome (Option Error) :=
  if c.Mutex then ⟨c, [], .blocked⟩
  else
    let c := { c with Mutex := true }
    if c.connectPending then
      let c := { c with connectPending := false }
      match os.Dial c.network c.address with
      | .error err => ⟨{ c with conn := none }.Unlock, [.Dial c.network c.address], .returned (some err)⟩
      | .ok sock =>
        let c := { c with conn := some sock, state := stateEstablished }
        if c.conn = none then
          ⟨c.Unlock, [.Dial c.network c.address], .returned (some (.text (str "not connected")))⟩
        else ⟨c.Unlock, [.Dial c.network c.address], .returned none⟩
    else if c.conn = none then ⟨c.Unlock, [], .returned (some (.text (str "not connected")))⟩
    else ⟨c.Unlock, [], .returned none⟩

/-- The method `conn.listen`: the accepted socket, or the error. -/
def conn.listen (os : OS) (c : Net9p.conn) : Outcome (Except Error NetConn) :=
  if c.Mutex then ⟨c, [], .blocked⟩
  else
    let c := { c with Mutex := true }
    match c.listener with
    | none => ⟨c.Unlock, [], .returned (.error (.text (str "not announced")))⟩
    | some l =>
      match os.Accept l with
      | .error err => ⟨c.Unlock, [.Accept l], .returned (.error err)⟩
      | .ok nc => ⟨c.Unlock, [.Accept l], .returned (.ok nc)⟩

/-- The method `conn.own`. -/
def conn.own (c : Net9p.conn) : Outcome Unit :=
  if c.Mutex then ⟨c, [], .blocked⟩
  else
    let c := { c with Mutex := true }
    let c := { c with owned := (c.owned + 1) % 4294967296 }
    ⟨c.Unlock, [], .returned ()⟩

/-- The method `conn.disown`. -/
def conn.disown (c : Net9p.conn) : Outcome Unit :=
  if c.Mutex then ⟨c, [], .blocked⟩
  else
    let c := { c with Mutex := true }
    let c := { c with owned := (c.owned + 4294967295) % 4294967296 }
    let shouldHangup := c.owned = 0
    let c := c.Unlock
    if shouldHangup then c.hangup else ⟨c, [], .returned ()⟩

/-! ## The ctl file (`conn.go`) -/

/-- The struct `ctlFile`; the slot it refers to is passed to `WriteAt`. -/
structure ctlFile where
  buf : List UInt8
  deriving DecidableEq, Repr

/-- The built-in `copy(p, b)`: the destination afterwards. -/
def copy (p b : List UInt8) : List UInt8 := b.take p.length ++ p.drop b.length

/-- The method `ctlFile.ReadAt`: the file afterwards, the read buffer afterwards,
and the count returned (the error is always nil). -/
def ctlFile.ReadAt (f : ctlFile) (p : List UInt8) : ctlFile × List UInt8 × Nat :=
  let n := f.buf.length
  let n := if n > p.length then p.length else n
  let p := copy p f.buf
  ({ f with buf := f.buf.take n }, p, n)

/-- The method `ctlFile.response`. -/
def ctlFile.response (f : ctlFile) (b : List UInt8) : ctlFile := { f with buf := f.buf ++ b }

/-- The method `ctlFile.WriteAt` on the slot `c`: the count returned and the
outcome of the command. -/
def ctlFile.WriteAt (os : OS) (c : Net9p.conn) (p : List UInt8) : Nat × Outcome (Option Error) :=
  (p.length, c.command os p)

/-! ## The family handler (`tcpudp.go`) -/

/-- The struct `TCPUDPHandler`; `root` lists the names added to the family
directory, in order. -/
structure TCPUDPHandler where
  Mutex : Bool
  root : List GoString
  network : GoString
  /-- A `uint16`. -/
  cnt : Nat
  deriving DecidableEq, Repr

/-- What one allocation builds: the number `curcnt`, the slot and its ctl file. -/
structure Allocation where
  curcnt : Nat
  conn : Net9p.conn
  ctlfile : ctlFile
  deriving DecidableEq, Repr

/-- The method `TCPUDPHandler.new`: the handler afterwards and the slot built. -/
def TCPUDPHandler.new (h : TCPUDPHandler) (c : Option NetConn) : TCPUDPHandler × Allocation :=
  let curcnt := h.cnt
  let h := { h with cnt := (h.cnt + 1) % 2 ^ 16 }
  let conn : Net9p.conn :=
    { Mutex := false, conn := c, listener := none, network := h.network, address := [],
      connectPending := false, owned := 0, state := str "Closed" }
  let conn := if c ≠ none then { conn with state := str "Established" } else conn
  let h := { h with root := h.root ++ [fmtUint curcnt] }
  let ctlfile : ctlFile := { buf := [] }
  let ctlfile := ctlfile.response (fmtUint curcnt)
  (h, { curcnt := curcnt, conn := conn, ctlfile := ctlfile })

/-- The method `TCPUDPHandler.next`; `none` when the handler mutex is held. -/
def TCPUDPHandler.next (h : TCPUDPHandler) : Option (TCPUDPHandler × Allocation) :=
  if h.Mutex then none
  else
    let r := { h with Mutex := true }.new none
    some ({ r.1 with Mutex := false }, r.2)

/-- The handler made by `NewTCPDir`; the directory holds `clone`. -/
def NewTCPDir : TCPUDPHandler :=
  { Mutex := false, root := [str "clone"], network := str "tcp", cnt := 0 }

/-- The handler made by `NewUDPDir`; the directory holds `clone`. -/
def NewUDPDir : TCPUDPHandler :=
  { Mutex := false, root := [str "clone"], network := str "udp", cnt := 0 }

/-! ## The connection-service file (`cs.go`) -/

/-- The struct `csHandle`. -/
structure csHandle where
  buf : List (List UInt8)
  deriving DecidableEq, Repr

/-- The method `csHandle.ReadAt`: the handle afterwards, the read buffer
afterwards, and the count returned (the error is always nil). -/
def csHandle.ReadAt (h : csHandle) (p : List UInt8) : csHandle × List UInt8 × Nat :=
  match h.buf with
  | [] => (h, p, 0)
  | b :: rest => ({ h with buf := rest }, copy p b, b.length)

/-- The response line of `csHandle.WriteAt` for one resolved address. -/
def csLine (family : GoString) (addr : GoString) (port : Int) : List UInt8 :=
  let a := if addr = [] then fmtInt port else addr ++ str "!" ++ fmtInt port
  str "/net/" ++ family ++ str "/clone " ++ a

/-- The method `csHandle.WriteAt`: the handle afterwards, the lookups made, the
count and the error returned. -/
def csHandle.WriteAt (os : OS) (h : csHandle) (p : List UInt8) :
    csHandle × List Event × Nat × Option Error :=
  let cmd := Split (TrimSpace p) bBang
  match cmd with
  | [c0, c1] => ({ h with buf := h.buf ++ [str "/net/" ++ c0 ++ str "/clone " ++ c1] }, [], p.length, none)
  | [c0, c1, c2] =>
    let c0 := if c0 = str "net" then str "tcp" else c0
    let c2 := if c2 = str "9fs" ∨ c2 = str "9pfs" then str "564" else c2
    match os.LookupPort c0 c2 with
    | .error err => (h, [.LookupPort c0 c2], p.length, some err)
    | .ok port =>
      let lookup : Except Error (List GoString) × List Event :=
        if c1 = str "*" then (.ok [[]], []) else (os.LookupHost c1, [.LookupHost c1])
      match lookup.1 with
      | .error err => (h, .LookupPort c0 c2 :: lookup.2, p.length, some err)
      | .ok addrs =>
        ({ h with buf := h.buf ++ addrs.map (fun addr => csLine c0 addr port) },
          .LookupPort c0 c2 :: lookup.2, p.length, none)
  | _ => (h, [], p.length, some (.text (str "invalid query")))

/-! ## Notions of the specification -/

/-- A non-empty text of decimal digits. -/
def isNumeral (P : GoString) : Prop := P ≠ [] ∧ ∀ b ∈ P, 48 ≤ b.toNat ∧ b.toNat ≤ 57

instance (P : GoString) : Decidable (isNumeral P) := by
  unfold isNumeral
  infer_instance

/-- The number a text of decimal digits denotes. -/
def numeralValue (P : GoString) : Nat := P.foldl (fun n b => 10 * n + (b.toNat - 48)) 0

/-- An operating system whose calls all succeed. -/
def osUp : OS :=
  { Dial := fun network _ => .ok ⟨1, network = str "tcp", false⟩
    Listen := fun _ _ => .ok ⟨7⟩
    Accept := fun _ => .ok ⟨2, true, false⟩
    LookupPort := fun _ _ => .ok 564
    LookupHost := fun _ => .ok [str "1.2.3.4"] }

/-- An operating system whose calls all fail. -/
def osDown : OS :=
  { Dial := fun _ _ => .error (.os 111)
    Listen := fun _ _ => .error (.os 13)
    Accept := fun _ => .error (.os 22)
    LookupPort := fun _ _ => .error (.os 2)
    LookupHost := fun _ => .error (.os 3) }

/-- The first slot cloned under `/net/tcp`. -/
def tcpSlot0 : Net9p.conn := (NewTCPDir.new none).2.conn

/-- The first slot of `/net/tcp` after its ctl file was opened and `announce 40000`
was written to it, the OS having created the listener. -/
def announcedSlot : Net9p.conn := (tcpSlot0.own.slot.command osUp (str "announce 40000")).slot

/-- The first slot of `/net/tcp` after its ctl file was opened and
`connect 1.2.3.4!80` was written to it. -/
def connectedSlot : Net9p.conn := (tcpSlot0.own.slot.command osUp (str "connect 1.2.3.4!80")).slot

/-- The calls made on a slot. -/
inductive Op
  | command (s : GoString)
  | dial
  | listen
  | hangup
  | own
  | disown
  deriving DecidableEq, Repr

/-- The slot after the call `op`, however the call ends, and the OS calls made. -/
def conn.step (os : OS) (c : Net9p.conn) : Op → Net9p.conn × List Event
  | .command s => ((c.command os s).slot, (c.command os s).trace)
  | .dial => ((c.dial os).slot, (c.dial os).trace)
  | .listen => ((c.listen os).slot, (c.listen os).trace)
  | .hangup => (c.hangup.slot, c.hangup.trace)
  | .own => (c.own.slot, c.own.trace)
  | .disown => (c.disown.slot, c.disown.trace)

/-- Whether an answer of the OS is an error. -/
def isError {ε α : Type} : Except ε α → Bool
  | .error _ => true
  | .ok _ => false

/-- Whether one of the calls of the trace `t` is an OS dial that `os` fails. -/
def dialFailed (os : OS) (t : List Event) : Bool :=
  t.any fun ev =>
    match ev with
    | .Dial network address => isError (os.Dial network address)
    | _ => false

/-- Whether one of the calls of the trace `t` is an OS listen that `os` fails. -/
def listenFailed (os : OS) (t : List Event) : Bool :=
  t.any fun ev =>
    match ev with
    | .Listen network address => isError (os.Listen network address)
    | _ => false

/-- The slots reachable from a newly allocated slot by calls on the slot, each
under its own answers of the OS, which may succeed or fail.  With
`redialsSucceed` the calls in which an OS dial fails on a slot that is already
`Established` are not taken (a first dial may fail); with `listensSucceed` the
calls in which an OS listen fails are not taken. -/
inductive Reachable (redialsSucceed listensSucceed : Bool) : Net9p.conn → Prop
  | new (h : TCPUDPHandler) (sock : Option NetConn) :
      Reachable redialsSucceed listensSucceed (h.new sock).2.conn
  | step (os : OS) (op : Op) (c : Net9p.conn) :
      Reachable redialsSucceed listensSucceed c →
      (redialsSucceed = true → c.state = stateEstablished →
        dialFailed os (c.step os op).2 = false) →
      (listensSucceed = true → listenFailed os (c.step os op).2 = false) →
      Reachable redialsSucceed listensSucceed (c.step os op).1

/-- The first slot of `/net/tcp` after `connect 1.2.3.4!80` and a data open whose
dial fails. -/
def failedDialSlot : Net9p.conn :=
  ((tcpSlot0.step osUp (.command (str "connect 1.2.3.4!80"))).1.step osDown .dial).1

/-- The first slot of `/net/tcp` after `connect 1.2.3.4!80`, a data open that
dials with success, and a hangup. -/
def hungupSlot : Net9p.conn :=
  (((tcpSlot0.step osUp (.command (str "connect 1.2.3.4!80"))).1.step osUp .dial).1.step osUp
    .hangup).1

/-- The numbers given to the slots by successive allocations, `socks` holding
for each allocation the accepted socket, or `none` for a clone walk. -/
def TCPUDPHandler.numbers (h : TCPUDPHandler) : List (Option NetConn) → List Nat
  | [] => []
  | c :: rest => (h.new c).2.curcnt :: TCPUDPHandler.numbers (h.new c).1 rest

/-- The ctl file of the first slot of `/net/tcp`. -/
def ctl0 : ctlFile := (NewTCPDir.new none).2.ctlfile

/-- An operating system whose service table gives port 9999 to `9fs`. -/
def osServices : OS :=
  { osUp with LookupPort := fun _ service => if service = str "9fs" then .ok 9999 else .ok 564 }

/-- Successive reads of a cs handle, one per read buffer of `ps`: the handle
afterwards and, for each read, the read buffer afterwards and the count. -/
def csHandle.reads (h : csHandle) : List (List UInt8) → csHandle × List (List UInt8 × Nat)
  | [] => (h, [])
  | p :: ps =>
    ((csHandle.reads (h.ReadAt p).1 ps).1,
      ((h.ReadAt p).2.1, (h.ReadAt p).2.2) :: (csHandle.reads (h.ReadAt p).1 ps).2)

/-- The hook of the `listen` file that `TCPUDPHandler.new` builds for the slot
`c`: the handler afterwards, the outcome of `conn.listen`, and the slot
allocated for the accepted socket, or the error. -/
def TCPUDPHandler.listenHook (os : OS) (h : TCPUDPHandler) (c : Net9p.conn) :
    TCPUDPHandler × Outcome (Except Error NetConn) × Option (Except Error Allocation) :=
  let o := c.listen os
  match o.ret with
  | .returned (.error err) => (h, o, some (.error err))
  | .returned (.ok nc) => ((h.new (some nc)).1, o, some (.ok (h.new (some nc)).2))
  | .panicked => (h, o, none)
  | .blocked => (h, o, none)

/-- The first slot of `/net/tcp` after `announce 40000`, `connect 1.2.3.4!80` and
a data open that dials with success. -/
def announcedDialledSlot : Net9p.conn :=
  (((tcpSlot0.command osUp (str "announce 40000")).slot.command osUp
    (str "connect 1.2.3.4!80")).slot.dial osUp).slot

/-- The first slot cloned under `/net/udp`. -/
def udpSlot0 : Net9p.conn := (NewUDPDir.new none).2.conn

/-- The command words that `conn.command` implements. -/
def implementedCommands : List GoString :=
  [str "connect", str "announce", str "accept", str "keepalive", str "hangup", str "reject"]

/-! ## The client (`client/client.go`) -/

/-- The byte of the separator in `strings.Split(x[0], "/")`. -/
def bSlash : UInt8 := 47

/-- The address that `IP.clone` takes out of the first response `res[0]` of a
lookup, or the error it returns. -/
def cloneAddr (res0 : GoString) : Except Error GoString :=
  let x := Split res0 bSpace
  match x with
  | [x0, x1] =>
    let path := Split x0 bSlash
    if path.length ≠ 4 then .error (.text (str "unexpected dial path: " ++ x0))
    else .ok x1
  | _ => .error (.text (str "unexpected lookup response: " ++ res0))

/-- The bytes that `IPConn.dial` writes to the ctl file for the address `addr`. -/
def dialWrite (addr : GoString) : List UInt8 := str "connect " ++ addr

/-! ## Lemmas on the library models -/

theorem Split_of_not_mem (sep : UInt8) (s : GoString) (h : sep ∉ s) : Split s sep = [s] := by
  induction s with
  | nil => rfl
  | cons b rest ih =>
    have hb : b ≠ sep := fun e => h (by simp [e])
    have hr : sep ∉ rest := fun e => h (by simp [e])
    simp [Split, hb, ih hr]

theorem Split_append (sep : UInt8) (a b : GoString) (h : sep ∉ a) :
    Split (a ++ sep :: b) sep = a :: Split b sep := by
  induction a with
  | nil => simp [Split]
  | cons x rest ih =>
    have hx : x ≠ sep := fun e => h (by simp [e])
    have hr : sep ∉ rest := fun e => h (by simp [e])
    simp [Split, hx, ih hr]

/-- The fuel of `trimLeftSpace` in `TrimSpace` is enough: what is returned starts
with no white-space rune. -/
theorem trimLeftSpace_done (fuel : Nat) (s : GoString) (h : s.length ≤ fuel) :
    leadingSpace (trimLeftSpace fuel s) = 0 := by
  induction fuel generalizing s with
  | zero =>
    have hs : s = [] := List.length_eq_zero.mp (by omega)
    subst hs
    decide
  | succ n ih =>
    unfold trimLeftSpace
    split
    · assumption
    · apply ih
      rw [List.length_drop]
      omega

/-- The fuel of `trimRightSpace` in `TrimSpace` is enough: what is returned ends
with no white-space rune. -/
theorem trimRightSpace_done (fuel : Nat) (s : GoString) (h : s.length ≤ fuel) :
    trailingSpace (trimRightSpace fuel s) = 0 := by
  induction fuel generalizing s with
  | zero =>
    have hs : s = [] := List.length_eq_zero.mp (by omega)
    subst hs
    decide
  | succ n ih =>
    unfold trimRightSpace
    split
    · assumption
    · apply ih
      rw [List.length_take]
      omega

theorem TrimSpace_no_trailing_space (s : GoString) : trailingSpace (TrimSpace s) = 0 :=
  trimRightSpace_done _ _ (Nat.le_refl _)

theorem numeral_fold_le (P : GoString) (n : Nat) :
    n ≤ P.foldl (fun n b => 10 * n + (b.toNat - 48)) n := by
  induction P generalizing n with
  | nil => simp
  | cons b rest ih =>
    simp only [List.foldl_cons]
    exact Nat.le_trans (by omega) (ih _)

theorem parseUintLoop_digits (s0 P : GoString) (n : Nat)
    (hd : ∀ b ∈ P, 48 ≤ b.toNat ∧ b.toNat ≤ 57)
    (hv : P.foldl (fun n b => 10 * n + (b.toNat - 48)) n < 2 ^ 64) :
    parseUintLoop s0 P n = .ok (P.foldl (fun n b => 10 * n + (b.toNat - 48)) n) := by
  induction P generalizing n with
  | nil => simp [parseUintLoop]
  | cons b rest ih =>
    have hb := hd b (by simp)
    have hrest : ∀ x ∈ rest, 48 ≤ x.toNat ∧ x.toNat ≤ 57 := fun x hx => hd x (by simp [hx])
    simp only [List.foldl_cons] at hv ⊢
    have hle := numeral_fold_le rest (10 * n + (b.toNat - 48))
    have hlt : 10 * n + (b.toNat - 48) < 2 ^ 64 := by omega
    have h10 : n * 10 % 2 ^ 64 = n * 10 := Nat.mod_eq_of_lt (by omega)
    have h1 : (n * 10 + (b.toNat - 48)) % 2 ^ 64 = n * 10 + (b.toNat - 48) :=
      Nat.mod_eq_of_lt (by omega)
    have hmul : n * 10 + (b.toNat - 48) = 10 * n + (b.toNat - 48) := by omega
    have hcut : ¬ n ≥ maxUint64 / 10 + 1 := by
      simp only [maxUint64]
      omega
    have hover : ¬ (n * 10 + (b.toNat - 48) < n * 10 ∨ n * 10 + (b.toNat - 48) > maxUint64) := by
      simp only [maxUint64]
      omega
    simp only [parseUintLoop, hb, and_self, if_true, hcut, if_false, h10, h1, hover]
    rw [hmul]
    exact ih _ hrest hv

theorem ParseUint_numeral (P : GoString) (hP : isNumeral P) (hv : numeralValue P < 2 ^ 64) :
    ParseUint P = .ok (numeralValue P) := by
  unfold ParseUint
  rw [if_neg hP.1]
  exact parseUintLoop_digits P P 0 hP.2 hv

theorem not_mem_numeral (P : GoString) (hP : isNumeral P) (b : UInt8)
    (hb : b.toNat < 48 ∨ 57 < b.toNat) : b ∉ P := by
  intro hmem
  have := hP.2 b hmem
  omega

theorem str_connect_sp : str "connect " = str "connect" ++ [bSpace] := by decide

theorem str_bang : str "!" = [bBang] := by decide

/-- Effect of a well-formed `connect` write, shared by the claims on `connect`. -/
theorem command_connect_sets_address_aux (os : OS) (c : Net9p.conn) (s H P : GoString)
    (hfree : c.Mutex = false)
    (hs : TrimSpace s = str "connect " ++ H ++ str "!" ++ P)
    (hsp : bSpace ∉ H) (hbang : bBang ∉ H)
    (hP : isNumeral P) (hp : numeralValue P ≤ 65535) :
    c.command os s =
      ⟨{ c with address := H ++ str ":" ++ fmtUint (numeralValue P), connectPending := true },
        [], .returned none⟩ := by
  have hspP : bSpace ∉ P := not_mem_numeral P hP bSpace (by decide)
  have hbangP : bBang ∉ P := not_mem_numeral P hP bBang (by decide)
  have hsplit : Split (TrimSpace s) bSpace = [str "connect", H ++ bBang :: P] := by
    rw [hs, str_connect_sp, str_bang]
    have h1 : str "connect" ++ [bSpace] ++ H ++ [bBang] ++ P
        = str "connect" ++ bSpace :: (H ++ bBang :: P) := by simp
    rw [h1, Split_append _ _ _ (by decide), Split_of_not_mem]
    simp only [List.mem_append, List.mem_cons, not_or]
    exact ⟨hsp, by decide, hspP⟩
  have haddr : Split (H ++ bBang :: P) bBang = [H, P] := by
    rw [Split_append _ _ _ hbang, Split_of_not_mem _ _ hbangP]
  have hparse := ParseUint_numeral P hP (by omega)
  have hport : ¬ numeralValue P > 65535 := by omega
  unfold conn.command
  simp only [hfree, hsplit, haddr, hparse, hport, if_true, if_false, List.length_singleton,
    Bool.false_eq_true]
  simp [conn.Unlock]

theorem announcing_ne_established : stateAnnouncing ≠ stateEstablished := by decide

theorem closed_ne_established : stateClosed ≠ stateEstablished := by decide

theorem closed_ne_announcing : stateClosed ≠ stateAnnouncing := by decide

theorem established_ne_announcing : stateEstablished ≠ stateAnnouncing := by decide

theorem new_established (h : TCPUDPHandler) (sock : Option NetConn) :
    (h.new sock).2.conn.state = stateEstablished → (h.new sock).2.conn.conn ≠ none := by
  cases sock with
  | none =>
    intro hst
    exact absurd hst closed_ne_established
  | some x => simp [TCPUDPHandler.new]

theorem new_announcing (h : TCPUDPHandler) (sock : Option NetConn) :
    (h.new sock).2.conn.state = stateAnnouncing → (h.new sock).2.conn.listener ≠ none := by
  cases sock with
  | none =>
    intro hst
    exact absurd hst closed_ne_announcing
  | some x =>
    intro hst
    exact absurd hst established_ne_announcing

/-- No command changes the socket of the slot. -/
theorem command_conn (os : OS) (c : Net9p.conn) (s : GoString) :
    (c.command os s).slot.conn = c.conn := by
  simp only [conn.command, conn.fail, conn.hangup, conn.Unlock]
  repeat' split
  all_goals first | (simp; done) | simp_all

/-- What a command can do to the state and the listener: both stay, or the
state becomes `Announcing`, with a listener unless `net.Listen` failed. -/
theorem command_state (os : OS) (c : Net9p.conn) (s : GoString) :
    ((c.command os s).slot.state = c.state ∧ (c.command os s).slot.listener = c.listener) ∨
    ((c.command os s).slot.state = stateAnnouncing ∧
      (listenFailed os (c.command os s).trace = false → (c.command os s).slot.listener ≠ none)) := by
  simp only [conn.command, conn.fail, conn.hangup, conn.Unlock]
  repeat' split
  all_goals first | (simp; done) | simp_all [listenFailed, isError]

theorem step_established (os : OS) (op : Op) (c : Net9p.conn)
    (ih : c.state = stateEstablished → c.conn ≠ none)
    (hd : c.state = stateEstablished → dialFailed os (c.step os op).2 = false) :
    (c.step os op).1.state = stateEstablished → (c.step os op).1.conn ≠ none := by
  cases op with
  | command s =>
    have hc := command_conn os c s
    simp only [conn.step]
    rcases command_state os c s with ⟨hs, _⟩ | ⟨hs, _⟩
    · rw [hc, hs]
      exact ih
    · rw [hs]
      intro hst
      exact absurd hst announcing_ne_established
  | dial =>
    revert hd ih
    simp only [conn.step, conn.dial, conn.Unlock, dialFailed]
    repeat' split
    all_goals simp_all [isError]
  | listen =>
    simp only [conn.step, conn.listen, conn.Unlock]
    repeat' split
    all_goals simp_all
  | hangup =>
    simp only [conn.step, conn.hangup, conn.Unlock]
    repeat' split
    all_goals simp_all [closed_ne_established]
  | own =>
    simp only [conn.step, conn.own, conn.Unlock]
    repeat' split
    all_goals simp_all
  | disown =>
    simp only [conn.step, conn.disown, conn.hangup, conn.Unlock]
    repeat' split
    all_goals simp_all [closed_ne_established]

theorem step_announcing (os : OS) (op : Op) (c : Net9p.conn)
    (ih : c.state = stateAnnouncing → c.listener ≠ none)
    (hl : listenFailed os (c.step os op).2 = false) :
    (c.step os op).1.state = stateAnnouncing → (c.step os op).1.listener ≠ none := by
  cases op with
  | command s =>
    simp only [conn.step] at hl ⊢
    rcases command_state os c s with ⟨hs, hlis⟩ | ⟨_, hlis⟩
    · rw [hs, hlis]
      exact ih
    · intro _
      exact hlis hl
  | dial =>
    simp only [conn.step, conn.dial, conn.Unlock]
    repeat' split
    all_goals simp_all [established_ne_announcing]
  | listen =>
    simp only [conn.step, conn.listen, conn.Unlock]
    repeat' split
    all_goals simp_all
  | hangup =>
    simp only [conn.step, conn.hangup, conn.Unlock]
    repeat' split
    all_goals simp_all [closed_ne_announcing]
  | own =>
    simp only [conn.step, conn.own, conn.Unlock]
    repeat' split
    all_goals simp_all
  | disown =>
    simp only [conn.step, conn.disown, conn.hangup, conn.Unlock]
    repeat' split
    all_goals simp_all [closed_ne_announcing]

theorem new_closed (h : TCPUDPHandler) (sock : Option NetConn) :
    (h.new sock).2.conn.state = stateClosed →
    ∀ x, (h.new sock).2.conn.conn = some x → x.closed = true := by
  cases sock with
  | none =>
    intro _ x hx
    simp [TCPUDPHandler.new] at hx
  | some y =>
    intro hst
    exact absurd hst.symm closed_ne_established

theorem step_closed (os : OS) (op : Op) (c : Net9p.conn)
    (ih : c.state = stateClosed → ∀ x, c.conn = some x → x.closed = true) :
    (c.step os op).1.state = stateClosed →
    ∀ x, (c.step os op).1.conn = some x → x.closed = true := by
  cases op with
  | command s =>
    have hc := command_conn os c s
    simp only [conn.step]
    rcases command_state os c s with ⟨hs, _⟩ | ⟨hs, _⟩
    · rw [hc, hs]
      exact ih
    · rw [hs]
      intro hst
      exact absurd hst.symm closed_ne_announcing
  | dial =>
    revert ih
    simp only [conn.step, conn.dial, conn.Unlock]
    repeat' split
    all_goals simp_all [closed_ne_established.symm]
  | listen =>
    revert ih
    simp only [conn.step, conn.listen, conn.Unlock]
    repeat' split
    all_goals simp_all
  | hangup =>
    revert ih
    simp only [conn.step, conn.hangup, conn.Unlock]
    repeat' split
    all_goals simp_all
  | own =>
    revert ih
    simp only [conn.step, conn.own, conn.Unlock]
    repeat' split
    all_goals simp_all
  | disown =>
    revert ih
    simp only [conn.step, conn.disown, conn.hangup, conn.Unlock]
    repeat' split
    all_goals simp_all

theorem str_announce_sp : str "announce " = str "announce" ++ [bSpace] := by decide

theorem str_star : str "*" = [42] := by decide

theorem new_cnt (h : TCPUDPHandler) (c : Option NetConn) :
    (h.new c).1.cnt = (h.cnt + 1) % 2 ^ 16 ∧ (h.new c).2.curcnt = h.cnt := by
  simp [TCPUDPHandler.new]

theorem numbers_eq (h : TCPUDPHandler) (socks : List (Option NetConn)) (hcnt : h.cnt < 2 ^ 16) :
    h.numbers socks = (List.range socks.length).map (fun i => (h.cnt + i) % 2 ^ 16) := by
  induction socks generalizing h with
  | nil => simp [TCPUDPHandler.numbers]
  | cons c rest ih =>
    have hnew := new_cnt h c
    have hlt : (h.new c).1.cnt < 2 ^ 16 := by
      rw [hnew.1]
      exact Nat.mod_lt _ (by norm_num)
    rw [TCPUDPHandler.numbers, ih _ hlt, hnew.1, hnew.2, List.length_cons,
      List.range_succ_eq_map, List.map_cons, List.map_map]
    congr 1
    · simp only [Nat.add_zero]
      exact (Nat.mod_eq_of_lt hcnt).symm
    · apply List.map_congr_left
      intro i _
      simp only [Function.comp, Nat.succ_eq_add_one]
      norm_num
      omega

theorem numbers_repeat_after_65536 (h : TCPUDPHandler) (socks : List (Option NetConn))
    (hcnt : h.cnt < 2 ^ 16) (hlen : socks.length = 65537) :
    ¬ List.Pairwise (fun a b => a < b) (h.numbers socks) := by
  intro hpw
  rw [numbers_eq h socks hcnt, List.pairwise_iff_getElem] at hpw
  have h0 : 0 < (List.map (fun i => (h.cnt + i) % 2 ^ 16) (List.range socks.length)).length := by
    rw [List.length_map, List.length_range, hlen]
    norm_num
  have h1 : 65536 < (List.map (fun i => (h.cnt + i) % 2 ^ 16) (List.range socks.length)).length := by
    rw [List.length_map, List.length_range, hlen]
    norm_num
  have hlt := hpw 0 65536 h0 h1 (by norm_num)
  simp only [List.getElem_map, List.getElem_range] at hlt
  norm_num at hlt

theorem ctl_ReadAt_eq (f : ctlFile) (p : List UInt8) :
    f.ReadAt p =
      (⟨f.buf.take (min f.buf.length p.length)⟩,
        f.buf.take (min f.buf.length p.length) ++ p.drop (min f.buf.length p.length),
        min f.buf.length p.length) := by
  unfold ctlFile.ReadAt copy
  by_cases h : f.buf.length > p.length
  · have hm : min f.buf.length p.length = p.length := by omega
    have hd : List.drop f.buf.length p = [] := List.drop_eq_nil_of_le (by omega)
    simp [h, hm, hd]
  · have hm : min f.buf.length p.length = f.buf.length := by omega
    have ht : List.take p.length f.buf = f.buf := List.take_of_length_le (by omega)
    simp [h, hm, ht]

theorem str_tcp_bang : str "tcp!" = str "tcp" ++ [bBang] := by decide

theorem str_clone_tcp : str "/net/" ++ str "tcp" ++ str "/clone " = str "/net/tcp/clone " := by
  decide

theorem csLine_tcp (a : GoString) (port : Int) (ha : a ≠ []) :
    csLine (str "tcp") a port = str "/net/tcp/clone " ++ a ++ str "!" ++ fmtInt port := by
  unfold csLine
  rw [if_neg ha, str_clone_tcp]
  simp only [List.append_assoc]

theorem take_copy (b p : List UInt8) (hb : b.length ≤ p.length) :
    (copy p b).take b.length = b := by
  unfold copy
  rw [List.take_of_length_le hb, List.take_left]

theorem reads_eq (q ps : List (List UInt8)) (hlen : ps.length = q.length) :
    csHandle.reads ⟨q⟩ ps = (⟨[]⟩, List.zipWith (fun b p => (copy p b, b.length)) q ps) := by
  induction q generalizing ps with
  | nil =>
    cases ps with
    | nil => rfl
    | cons p ps => simp at hlen
  | cons b rest ih =>
    cases ps with
    | nil => simp at hlen
    | cons p ps =>
      have hl : ps.length = rest.length := by simpa using hlen
      have hrec := ih ps hl
      simp only [csHandle.reads, csHandle.ReadAt, List.zipWith_cons_cons, hrec]

theorem parseUintLoop_ok (s0 P : GoString) (n v : Nat) (h : parseUintLoop s0 P n = .ok v) :
    (∀ b ∈ P, 48 ≤ b.toNat ∧ b.toNat ≤ 57) ∧
    v = P.foldl (fun n b => 10 * n + (b.toNat - 48)) n := by
  induction P generalizing n with
  | nil =>
    simp only [parseUintLoop, Except.ok.injEq] at h
    simp [h]
  | cons b rest ih =>
    simp only [parseUintLoop] at h
    split at h
    · rename_i hdig
      split at h
      · cases h
      · rename_i hcut
        split at h
        · cases h
        · rename_i hover
          have hrec := ih _ h
          simp only [maxUint64] at hcut hover
          have hn : (n * 10 % 2 ^ 64 + (b.toNat - 48)) % 2 ^ 64 = 10 * n + (b.toNat - 48) := by
            omega
          rw [hn] at hrec
          refine ⟨?_, hrec.2⟩
          intro x hx
          rcases List.mem_cons.mp hx with rfl | hx
          · exact hdig
          · exact hrec.1 x hx
    · cases h

/-- Soundness of the model of `strconv.ParseUint`: what it accepts is a decimal
numeral, and the number returned is its value. -/
theorem ParseUint_ok (P : GoString) (v : Nat) (h : ParseUint P = .ok v) :
    isNumeral P ∧ v = numeralValue P := by
  unfold ParseUint at h
  split at h
  · cases h
  · rename_i hne
    have := parseUintLoop_ok P P 0 v h
    exact ⟨⟨hne, this.1⟩, this.2⟩

theorem fail_free (c : Net9p.conn) (hfree : c.Mutex = false) (e : Error) :
    conn.fail { c with Mutex := true } e = ⟨c, [], .returned (some e)⟩ := by
  cases c
  simp_all [conn.fail, conn.Unlock]

theorem str_net_bang : str "net!" = str "net" ++ [bBang] := by decide

theorem str_bang_9fs : str "!9fs" = bBang :: str "9fs" := by decide

theorem str_bang_9pfs : str "!9pfs" = bBang :: str "9pfs" := by decide

theorem str_bang_564 : str "!564" = bBang :: str "564" := by decide

theorem Split_three (a H b : GoString) (ha : bBang ∉ a) (hH : bBang ∉ H) (hb : bBang ∉ b) :
    Split (a ++ [bBang] ++ H ++ bBang :: b) bBang = [a, H, b] := by
  have h1 : a ++ [bBang] ++ H ++ bBang :: b = a ++ bBang :: (H ++ bBang :: b) := by simp
  rw [h1, Split_append _ _ _ ha, Split_append _ _ _ hH, Split_of_not_mem _ _ hb]

theorem keepalive_ne : str "keepalive" ≠ str "connect" ∧ str "keepalive" ≠ str "announce" ∧
    str "keepalive" ≠ str "accept" := by decide

theorem hangup_ne : str "hangup" ≠ str "connect" ∧ str "hangup" ≠ str "announce" ∧
    str "hangup" ≠ str "accept" ∧ str "hangup" ≠ str "keepalive" := by decide

theorem reject_ne : str "reject" ≠ str "connect" ∧ str "reject" ≠ str "announce" ∧
    str "reject" ≠ str "accept" ∧ str "reject" ≠ str "keepalive" := by decide

theorem digitChar_byte (k : Nat) (hk : k < 10) :
    (Nat.digitChar k).toNat.toUInt8.toNat = 48 + k := by
  interval_cases k <;> rfl

theorem toDigitsCore_append (fuel n : Nat) (acc : List Char) :
    Nat.toDigitsCore 10 fuel n acc = Nat.toDigitsCore 10 fuel n [] ++ acc := by
  induction fuel generalizing n acc with
  | zero => simp [Nat.toDigitsCore]
  | succ f ih =>
    simp only [Nat.toDigitsCore]
    split
    · simp
    · rw [ih _ (_ :: acc), ih _ [_]]
      simp

/-- The digits that `%d` prints are a decimal numeral of the number printed. -/
theorem toDigitsCore_numeral (fuel n : Nat) (h : n < fuel) :
    isNumeral ((Nat.toDigitsCore 10 fuel n []).map (fun c => c.toNat.toUInt8)) ∧
    numeralValue ((Nat.toDigitsCore 10 fuel n []).map (fun c => c.toNat.toUInt8)) = n := by
  induction fuel generalizing n with
  | zero => omega
  | succ f ih =>
    have hd := digitChar_byte (n % 10) (Nat.mod_lt _ (by norm_num))
    simp only [Nat.toDigitsCore]
    split
    · rename_i hz
      refine ⟨⟨by simp, ?_⟩, ?_⟩
      · intro b hb
        simp only [List.map_cons, List.map_nil, List.mem_singleton] at hb
        subst hb
        omega
      · simp only [numeralValue, List.map_cons, List.map_nil, List.foldl_cons, List.foldl_nil, hd]
        omega
    · rename_i hz
      have hrec := ih (n / 10) (by omega)
      rw [toDigitsCore_append]
      refine ⟨⟨by simp, ?_⟩, ?_⟩
      · intro b hb
        simp only [List.map_append, List.map_cons, List.map_nil, List.mem_append,
          List.mem_singleton] at hb
        rcases hb with hb | hb
        · exact hrec.1.2 b hb
        · subst hb
          omega
      · have hv := hrec.2
        simp only [numeralValue] at hv
        simp only [numeralValue, List.map_append, List.map_cons, List.map_nil, List.foldl_append,
          List.foldl_cons, List.foldl_nil, hv, hd]
        omega

theorem fmtUint_numeral (n : Nat) : isNumeral (fmtUint n) ∧ numeralValue (fmtUint n) = n :=
  toDigitsCore_numeral (n + 1) n (Nat.lt_succ_self n)

theorem fmtInt_natCast (n : Nat) : fmtInt (n : Int) = fmtUint n := by
  simp [fmtInt]

theorem trimLeftSpace_id (fuel : Nat) (s : GoString) (h : leadingSpace s = 0) :
    trimLeftSpace fuel s = s := by
  cases fuel <;> simp [trimLeftSpace, h]

theorem trimRightSpace_id (fuel : Nat) (s : GoString) (h : trailingSpace s = 0) :
    trimRightSpace fuel s = s := by
  cases fuel <;> simp [trimRightSpace, h]

theorem leadingSpace_connect (rest : GoString) : leadingSpace (str "connect " ++ rest) = 0 := by
  rw [show str "connect " = 99 :: str "onnect " from by decide]
  rfl

theorem trailingSpace_digit (body : GoString) (d : UInt8)
    (hd : 48 ≤ d.toNat ∧ d.toNat ≤ 57) : trailingSpace (body ++ [d]) = 0 := by
  have hrev : (body ++ [d]).reverse = d :: body.reverse := by simp
  unfold trailingSpace
  rw [hrev]
  obtain ⟨⟨n, hn⟩⟩ := d
  have hd2 : 48 ≤ n ∧ n ≤ 57 := hd
  obtain ⟨h1, h2⟩ := hd2
  interval_cases n <;> rfl

/-- The write `connect ` followed by a text that ends in a decimal numeral is
left as it is by `strings.TrimSpace`. -/
theorem TrimSpace_connect (body P : GoString) (hP : isNumeral P) :
    TrimSpace (str "connect " ++ body ++ P) = str "connect " ++ body ++ P := by
  have hlast : P = P.dropLast ++ [P.getLast hP.1] := (List.dropLast_append_getLast hP.1).symm
  have hdig := hP.2 (P.getLast hP.1) (List.getLast_mem hP.1)
  have h1 : leadingSpace (str "connect " ++ body ++ P) = 0 := by
    rw [List.append_assoc]
    exact leadingSpace_connect _
  have h2 : trailingSpace (str "connect " ++ body ++ P) = 0 := by
    rw [hlast, ← List.append_assoc]
    exact trailingSpace_digit _ _ hdig
  unfold TrimSpace
  simp only [trimLeftSpace_id _ _ h1, trimRightSpace_id _ _ h2]

theorem str_net_path : str "/net/" = bSlash :: (str "net" ++ [bSlash]) := by decide

theorem str_clone_sp : str "/clone " = str "/clone" ++ [bSpace] := by decide

theorem str_clone_path : str "/clone" = bSlash :: str "clone" := by decide

/-! ## The claims -/

/-- C1: for every slot whose mutex is free and every ctl write whose trimmed
text is `connect H!P`, where `H` holds no space and no `!` and `P` is a decimal
numeral of value at most 65535, `conn.command` returns no error, makes no OS
call, sets the address to `H:p` with `p` in decimal, sets `connectPending`, and
leaves every other field as it was. -/
theorem command_connect_sets_address (os : OS) (c : Net9p.conn) (s H P : GoString)
    (hfree : c.Mutex = false)
    (hs : TrimSpace s = str "connect " ++ H ++ str "!" ++ P)
    (hsp : bSpace ∉ H) (hbang : bBang ∉ H)
    (hP : isNumeral P) (hp : numeralValue P ≤ 65535) :
    c.command os s =
      ⟨{ c with address := H ++ str ":" ++ fmtUint (numeralValue P), connectPending := true },
        [], .returned none⟩ :=
  command_connect_sets_address_aux os c s H P hfree hs hsp hbang hP hp

/-- C1, at the write ` connect 1.2.3.4!0080` followed by a newline, on the first
slot of `/net/tcp`. -/
theorem command_connect_sets_address_witness :
    tcpSlot0.command osUp (str " connect 1.2.3.4!0080\n") =
      ⟨{ tcpSlot0 with address := str "1.2.3.4" ++ str ":" ++ fmtUint (numeralValue (str "0080")),
                       connectPending := true }, [], .returned none⟩ :=
  command_connect_sets_address osUp tcpSlot0 (str " connect 1.2.3.4!0080\n") (str "1.2.3.4")
    (str "0080") (by decide) (by decide) (by decide) (by decide) (by decide) (by decide)

/-- C2: on a slot whose mutex is free, the writes `connect` and `announce`
without an argument make `conn.command` index the empty argument list: the call
panics instead of returning an error. -/
theorem command_without_argument_panics (os : OS) (c : Net9p.conn) (hfree : c.Mutex = false) :
    (c.command os (str "connect")).ret = .panicked ∧
    (c.command os (str "announce")).ret = .panicked := by
  have h1 : Split (TrimSpace (str "connect")) bSpace = [str "connect"] := by decide
  have h2 : Split (TrimSpace (str "announce")) bSpace = [str "announce"] := by decide
  have h3 : str "announce" ≠ str "connect" := by decide
  constructor
  · unfold conn.command
    simp [hfree, h1]
  · unfold conn.command
    simp [hfree, h2, h3]

/-- C2, on the first slot of `/net/tcp`. -/
theorem command_without_argument_panics_witness :
    (tcpSlot0.command osUp (str "connect")).ret = .panicked ∧
    (tcpSlot0.command osUp (str "announce")).ret = .panicked :=
  command_without_argument_panics osUp tcpSlot0 (by decide)

/-- C3, as the code has it: a slot that is announcing and has no socket is still
announcing after `conn.hangup` has run and returned. -/
theorem hangup_leaves_announcing :
    announcedSlot.conn = none ∧ announcedSlot.state = stateAnnouncing ∧
    announcedSlot.hangup.ret = .returned () ∧
    announcedSlot.hangup.slot.state = stateAnnouncing ∧ stateAnnouncing ≠ stateClosed := by
  decide

/-- C3, amended: on a slot whose mutex is free `conn.hangup` returns; when a
socket is present it closes it and the state afterwards is `Closed`; when no
socket is present it leaves the slot as it was, state included. -/
theorem hangup_state (c : Net9p.conn) (hfree : c.Mutex = false) :
    c.hangup.ret = .returned () ∧
    (∀ sock, c.conn = some sock →
      c.hangup.slot.state = stateClosed ∧
      c.hangup.slot.conn = some { sock with closed := true } ∧
      c.hangup.trace = [.hangup, .Close sock]) ∧
    (c.conn = none → c.hangup.slot = c ∧ c.hangup.trace = [.hangup]) := by
  cases c with
  | mk m sock l nw a cp ow st =>
    cases sock <;> simp_all [conn.hangup, conn.Unlock]

/-- C3 amended, on the announcing slot. -/
theorem hangup_state_witness :
    announcedSlot.hangup.ret = .returned () ∧
    (∀ sock, announcedSlot.conn = some sock →
      announcedSlot.hangup.slot.state = stateClosed ∧
      announcedSlot.hangup.slot.conn = some { sock with closed := true } ∧
      announcedSlot.hangup.trace = [.hangup, .Close sock]) ∧
    (announcedSlot.conn = none →
      announcedSlot.hangup.slot = announcedSlot ∧ announcedSlot.hangup.trace = [.hangup]) :=
  hangup_state announcedSlot (by decide)

/-- C4, as the code has it: after `connect 1.2.3.4!80` and a hangup,
`connectPending` is still set and the next data open dials. -/
theorem hangup_keeps_connectPending :
    connectedSlot.hangup.ret = .returned () ∧
    connectedSlot.hangup.slot.connectPending = true ∧
    (connectedSlot.hangup.slot.dial osUp).trace = [.Dial (str "tcp") (str "1.2.3.4:80")] ∧
    (connectedSlot.hangup.slot.dial osUp).ret = .returned none ∧
    (connectedSlot.hangup.slot.dial osUp).slot.state = stateEstablished := by
  decide

/-- C4, amended: on a newly allocated slot without a socket, after a successful
`connect H!P` followed by `conn.hangup`, the hangup has changed nothing:
`connectPending` is still set, and the next data open calls the OS dial once, for
the slot's network and `H:p`; it returns the error of the dial when the dial
fails, and otherwise returns no error with the dialled socket in the slot and
the state `Established`. -/
theorem connect_hangup_dial (os os2 : OS) (h : TCPUDPHandler) (s H P : GoString)
    (hs : TrimSpace s = str "connect " ++ H ++ str "!" ++ P)
    (hsp : bSpace ∉ H) (hbang : bBang ∉ H)
    (hP : isNumeral P) (hp : numeralValue P ≤ 65535) :
    (((h.new none).2.conn.command os s).slot.hangup.slot = ((h.new none).2.conn.command os s).slot) ∧
    ((h.new none).2.conn.command os s).slot.hangup.slot.connectPending = true ∧
    (((h.new none).2.conn.command os s).slot.hangup.slot.dial os2).trace =
      [.Dial h.network (H ++ str ":" ++ fmtUint (numeralValue P))] ∧
    (∀ err, os2.Dial h.network (H ++ str ":" ++ fmtUint (numeralValue P)) = .error err →
      (((h.new none).2.conn.command os s).slot.hangup.slot.dial os2).ret = .returned (some err)) ∧
    (∀ sock, os2.Dial h.network (H ++ str ":" ++ fmtUint (numeralValue P)) = .ok sock →
      (((h.new none).2.conn.command os s).slot.hangup.slot.dial os2).ret = .returned none ∧
      (((h.new none).2.conn.command os s).slot.hangup.slot.dial os2).slot.conn = some sock ∧
      (((h.new none).2.conn.command os s).slot.hangup.slot.dial os2).slot.state =
        stateEstablished) := by
  have hcmd := command_connect_sets_address_aux os (h.new none).2.conn s H P rfl hs hsp hbang hP hp
  rw [hcmd]
  simp only [TCPUDPHandler.new, ctlFile.response, conn.hangup, conn.Unlock, conn.dial]
  refine ⟨by simp, by simp, ?_, ?_, ?_⟩
  · cases hd : os2.Dial h.network (H ++ str ":" ++ fmtUint (numeralValue P)) <;>
      simp only [List.append_assoc] at hd ⊢ <;> simp [hd]
  · intro err hd
    simp only [List.append_assoc] at hd ⊢
    simp [hd]
  · intro sock hd
    simp only [List.append_assoc] at hd ⊢
    simp [hd]

/-- C4 amended, at the write `connect 1.2.3.4!80` on a slot of `/net/tcp`. -/
theorem connect_hangup_dial_witness :
    (((NewTCPDir.new none).2.conn.command osUp (str "connect 1.2.3.4!80")).slot.hangup.slot.dial
      osDown).ret = .returned (some (.os 111)) :=
  (connect_hangup_dial osUp osDown NewTCPDir (str "connect 1.2.3.4!80") (str "1.2.3.4") (str "80")
    (by decide) (by decide) (by decide) (by decide) (by decide)).2.2.2.1 (.os 111) (by decide)

/-- C5, as the code has it: after `connect`, a data open whose dial succeeds and
a hangup, every OS call having succeeded, the state is `Closed` and the socket
is still in the slot. -/
theorem closed_slot_keeps_socket :
    Reachable true true hungupSlot ∧ hungupSlot.state = stateClosed ∧
    hungupSlot.conn = some ⟨1, true, true⟩ := by
  refine ⟨?_, by decide, by decide⟩
  unfold hungupSlot tcpSlot0
  refine Reachable.step _ _ _ (Reachable.step _ _ _ (Reachable.step _ _ _ (Reachable.new _ _)
    ?_ ?_) ?_ ?_) ?_ ?_
  all_goals first | (intro _ _; decide) | (intro _; decide)

/-- C5, amended: over every slot reachable from a newly allocated slot by ctl
commands, data opens, listen walks, hangups and own and disown calls, the OS dial
and listen calls succeeding or failing at will: the state `Established` implies
that a socket is present, as long as no OS dial failed on a slot that was already
`Established`; the state `Announcing` implies that a listener is present, as long
as no OS listen failed; and the state `Closed` implies that the socket is absent
or has been closed. -/
theorem slot_invariant (redialsSucceed listensSucceed : Bool) (c : Net9p.conn)
    (hr : Reachable redialsSucceed listensSucceed c) :
    (redialsSucceed = true → c.state = stateEstablished → c.conn ≠ none) ∧
    (listensSucceed = true → c.state = stateAnnouncing → c.listener ≠ none) ∧
    (c.state = stateClosed → ∀ sock, c.conn = some sock → sock.closed = true) := by
  induction hr with
  | new h sock =>
    refine ⟨?_, ?_, new_closed h sock⟩
    · intro _
      exact new_established h sock
    · intro _
      exact new_announcing h sock
  | step os op c _ hd hl ih =>
    refine ⟨?_, ?_, step_closed os op c ih.2.2⟩
    · intro hds
      exact step_established os op c (ih.1 hds) (hd hds)
    · intro hls
      exact step_announcing os op c (ih.2.1 hls) (hl hls)

/-- C5 amended, on the slot whose first dial failed: it is reachable with no
failed dial on an established slot, and it is `Closed` without a socket. -/
theorem slot_invariant_witness :
    ((true = true → failedDialSlot.state = stateEstablished → failedDialSlot.conn ≠ none) ∧
      (true = true → failedDialSlot.state = stateAnnouncing →
        failedDialSlot.listener ≠ none) ∧
      (failedDialSlot.state = stateClosed →
        ∀ sock, failedDialSlot.conn = some sock → sock.closed = true)) ∧
    failedDialSlot.state = stateClosed ∧ failedDialSlot.conn = none ∧
    dialFailed osDown
      ((tcpSlot0.step osUp (.command (str "connect 1.2.3.4!80"))).1.step osDown .dial).2 = true :=
  ⟨slot_invariant true true failedDialSlot (by
      unfold failedDialSlot tcpSlot0
      refine Reachable.step _ _ _ (Reachable.step _ _ _ (Reachable.new _ _) ?_ ?_) ?_ ?_
      all_goals first
        | (intro _ _; decide)
        | (intro _ hst; exact absurd hst (by decide))
        | (intro _; decide)),
    by decide, by decide, by decide⟩

/-- C6: on a slot whose mutex is free, when the write is `announce P` with a
valid port and the OS fails to create the listener, `conn.command` drops the
error: it returns no error, and the state is `Announcing` with no listener. -/
theorem announce_drops_listen_error (os : OS) (c : Net9p.conn) (s P : GoString) (err : Error)
    (hfree : c.Mutex = false)
    (hs : TrimSpace s = str "announce " ++ P)
    (hP : isNumeral P) (hp : numeralValue P ≤ 65535)
    (hfail : os.Listen c.network (str ":" ++ fmtUint (numeralValue P)) = .error err) :
    (c.command os s).ret = .returned none ∧
    (c.command os s).slot.state = stateAnnouncing ∧
    (c.command os s).slot.listener = none ∧
    (c.command os s).trace = [.Listen c.network (str ":" ++ fmtUint (numeralValue P))] := by
  have hspP : bSpace ∉ P := not_mem_numeral P hP bSpace (by decide)
  have hsplit : Split (TrimSpace s) bSpace = [str "announce", P] := by
    rw [hs, str_announce_sp]
    have h1 : str "announce" ++ [bSpace] ++ P = str "announce" ++ bSpace :: P := by simp
    rw [h1, Split_append _ _ _ (by decide), Split_of_not_mem _ _ hspP]
  have hne : str "announce" ≠ str "connect" := by decide
  have hstar : P ≠ str "*" := by
    intro h
    have h42 : (42 : UInt8) ∉ P := not_mem_numeral P hP 42 (by decide)
    rw [h, str_star] at h42
    simp at h42
  have hparse := ParseUint_numeral P hP (by omega)
  have hport : ¬ numeralValue P > 65535 := by omega
  unfold conn.command
  simp only [hfree, hsplit, hne, hstar, hparse, hport, hfail, if_true, if_false,
    Bool.false_eq_true]
  simp [conn.Unlock]

/-- C6, at the write `announce 80` on the first slot of `/net/tcp` while the OS
refuses to listen. -/
theorem announce_drops_listen_error_witness :
    (tcpSlot0.command osDown (str "announce 80")).ret = .returned none ∧
    (tcpSlot0.command osDown (str "announce 80")).slot.state = stateAnnouncing ∧
    (tcpSlot0.command osDown (str "announce 80")).slot.listener = none ∧
    (tcpSlot0.command osDown (str "announce 80")).trace =
      [.Listen tcpSlot0.network (str ":" ++ fmtUint (numeralValue (str "80")))] :=
  announce_drops_listen_error osDown tcpSlot0 (str "announce 80") (str "80") (.os 13)
    (by decide) (by decide) (by decide) (by decide) (by decide)

/-- C7, as the code has it: the last disown of a slot that is announcing and
has no socket invokes hangup once and leaves the state `Announcing`. -/
theorem disown_leaves_announcing :
    announcedSlot.owned = 1 ∧ announcedSlot.conn = none ∧
    announcedSlot.disown.slot.owned = 0 ∧ announcedSlot.disown.trace = [.hangup] ∧
    announcedSlot.disown.ret = .returned () ∧
    announcedSlot.disown.slot.state = stateAnnouncing ∧ stateAnnouncing ≠ stateClosed := by
  decide

/-- C7, amended: on a slot whose mutex is free and whose owned count is
positive, `conn.disown` returns and lowers the count by one.  When the count
goes from 1 to 0 it invokes hangup exactly once; afterwards the state is
`Closed` if a socket is present, and is the state of before if no socket is
present.  When the count stays positive it does not invoke hangup and changes
nothing else. -/
theorem disown_hangs_up_at_zero (c : Net9p.conn) (hfree : c.Mutex = false)
    (hpos : 0 < c.owned) (hlt : c.owned < 4294967296) :
    c.disown.ret = .returned () ∧ c.disown.slot.owned = c.owned - 1 ∧
    (c.owned = 1 →
      c.disown.trace.count .hangup = 1 ∧
      (∀ sock, c.conn = some sock → c.disown.slot.state = stateClosed) ∧
      (c.conn = none → c.disown.slot.state = c.state)) ∧
    (1 < c.owned →
      c.disown.trace.count .hangup = 0 ∧ c.disown.slot = { c with owned := c.owned - 1 }) := by
  cases c with
  | mk m sock l nw a cp ow st =>
    simp only at hfree hpos hlt
    subst hfree
    by_cases h1 : ow = 1
    · subst h1
      have hmod : (1 + 4294967295) % 4294967296 = 0 := by norm_num
      cases sock with
      | none =>
        simp only [conn.disown, conn.Unlock, conn.hangup, Bool.false_eq_true, if_false, hmod,
          if_true]
        refine ⟨trivial, trivial, fun _ => ⟨?_, ?_, ?_⟩, fun h => absurd h (by omega)⟩
        · simp
        · intro sock h
          cases h
        · intro _
          trivial
      | some x =>
        simp only [conn.disown, conn.Unlock, conn.hangup, Bool.false_eq_true, if_false, hmod,
          if_true]
        refine ⟨trivial, trivial, fun _ => ⟨?_, ?_, ?_⟩, fun h => absurd h (by omega)⟩
        · simp
        · intro sock h
          trivial
        · intro h
          cases h
    · have hmod : (ow + 4294967295) % 4294967296 = ow - 1 := by omega
      have h0 : ow - 1 ≠ 0 := by omega
      simp only [conn.disown, conn.Unlock, Bool.false_eq_true, if_false, hmod, h0]
      refine ⟨trivial, trivial, fun h => absurd h h1, fun _ => ⟨?_, trivial⟩⟩
      simp

/-- C7 amended, on the announcing slot, whose ctl file is the one open file. -/
theorem disown_hangs_up_at_zero_witness :
    announcedSlot.disown.ret = .returned () ∧
    announcedSlot.disown.slot.owned = announcedSlot.owned - 1 ∧
    (announcedSlot.owned = 1 →
      announcedSlot.disown.trace.count .hangup = 1 ∧
      (∀ sock, announcedSlot.conn = some sock → announcedSlot.disown.slot.state = stateClosed) ∧
      (announcedSlot.conn = none → announcedSlot.disown.slot.state = announcedSlot.state)) ∧
    (1 < announcedSlot.owned →
      announcedSlot.disown.trace.count .hangup = 0 ∧
      announcedSlot.disown.slot = { announcedSlot with owned := announcedSlot.owned - 1 }) :=
  disown_hangs_up_at_zero announcedSlot (by decide) (by decide) (by decide)

/-- C8, as the code has it: of 65537 clone walks on a new `/net/tcp`, the last
is given the number 0 again, so the numbers are not strictly increasing. -/
theorem numbers_wrap_around :
    ¬ List.Pairwise (fun a b => a < b) (NewTCPDir.numbers (List.replicate 65537 none)) :=
  numbers_repeat_after_65536 NewTCPDir (List.replicate 65537 none) (by decide)
    (List.length_replicate _ _)

/-- C8, amended: the counter is a 16-bit unsigned integer that each allocation
increments once, modulo 65536; the allocation is given the value of before.  So
the i-th allocation (from 0) on a handler with counter `cnt` is given
`(cnt + i) mod 65536`, and the numbers of a sequence of allocations are strictly
increasing as long as `cnt` plus the length of the sequence is at most 65536. -/
theorem numbers_increasing_until_wrap (h : TCPUDPHandler) (socks : List (Option NetConn))
    (hcnt : h.cnt < 2 ^ 16) :
    (∀ c, (h.new c).1.cnt = (h.cnt + 1) % 2 ^ 16 ∧ (h.new c).2.curcnt = h.cnt) ∧
    h.numbers socks = (List.range socks.length).map (fun i => (h.cnt + i) % 2 ^ 16) ∧
    (h.cnt + socks.length ≤ 2 ^ 16 →
      List.Pairwise (fun a b => a < b) (h.numbers socks)) := by
  refine ⟨new_cnt h, numbers_eq h socks hcnt, ?_⟩
  intro hlen
  rw [numbers_eq h socks hcnt, List.pairwise_map]
  refine (List.pairwise_lt_range socks.length).imp_of_mem ?_
  intro a b ha hb hab
  have ha2 := List.mem_range.mp ha
  have hb2 := List.mem_range.mp hb
  norm_num at hlen ⊢
  omega

/-- C8 amended, at three allocations on a new `/net/tcp`. -/
theorem numbers_increasing_until_wrap_witness :
    NewTCPDir.numbers [none, some ⟨2, true, false⟩, none] = [0, 1, 2] :=
  (numbers_increasing_until_wrap NewTCPDir [none, some ⟨2, true, false⟩, none]
    (by decide)).2.1.trans (by decide)

/-- C9: the ctl file of slot `0` buffers `0`; a read into 8 bytes returns 1 byte,
`0`, and leaves the buffer holding that same byte, so the next read returns it
again; and a read of 1 byte from a buffer `10` keeps `1` and drops the unread
`0`. -/
theorem ctl_read_keeps_the_read_bytes :
    ctl0.buf = str "0" ∧
    ctl0.ReadAt (List.replicate 8 0) = (⟨str "0"⟩, str "0" ++ List.replicate 7 0, 1) ∧
    ((ctl0.ReadAt (List.replicate 8 0)).1.ReadAt (List.replicate 8 0)).2.2 = 1 ∧
    (ctlFile.ReadAt ⟨str "10"⟩ [0]) = (⟨str "1"⟩, str "1", 1) := by
  decide

/-- C10, as the code has it: for the query `tcp!h!9fs` the port is the one the
OS gives for `564`, not the one it gives for `9fs`. -/
theorem cs_looks_up_coerced_service :
    osServices.LookupPort (str "tcp") (str "9fs") = .ok 9999 ∧
    osServices.LookupHost (str "h") = .ok [str "1.2.3.4"] ∧
    (csHandle.WriteAt osServices ⟨[]⟩ (str "tcp!h!9fs")).1.buf =
      [str "/net/tcp/clone 1.2.3.4!564"] ∧
    str "/net/tcp/clone 1.2.3.4!564" ≠ str "/net/tcp/clone 1.2.3.4!9999" := by
  decide

/-- C10, amended: for every write whose trimmed payload is `tcp!H!S` with `H`
other than `*`, if the OS port lookup on tcp of the service that is looked up
(`564` when `S` is `9fs` or `9pfs`, else `S`) succeeds with port `p`, and the
host lookup of `H` succeeds with the addresses `a1..an`, none of them empty,
then `csHandle.WriteAt` returns the payload length and no error, makes these
two lookups, and appends to the response queue exactly `n` entries, in lookup
order, the i-th being `/net/tcp/clone ai!p`. -/
theorem cs_tcp_query_lines (os : OS) (h : csHandle) (p H S : GoString) (port : Int)
    (addrs : List GoString)
    (hp : TrimSpace p = str "tcp!" ++ H ++ str "!" ++ S)
    (hH : bBang ∉ H) (hS : bBang ∉ S) (hstar : H ≠ str "*")
    (hport : os.LookupPort (str "tcp")
      (if S = str "9fs" ∨ S = str "9pfs" then str "564" else S) = .ok port)
    (hhost : os.LookupHost H = .ok addrs)
    (haddrs : ∀ a ∈ addrs, a ≠ []) :
    csHandle.WriteAt os h p =
      (⟨h.buf ++ addrs.map (fun a => str "/net/tcp/clone " ++ a ++ str "!" ++ fmtInt port)⟩,
        [.LookupPort (str "tcp") (if S = str "9fs" ∨ S = str "9pfs" then str "564" else S),
          .LookupHost H],
        p.length, none) := by
  have hsplit : Split (TrimSpace p) bBang = [str "tcp", H, S] := by
    rw [hp, str_tcp_bang, str_bang]
    have h1 : str "tcp" ++ [bBang] ++ H ++ [bBang] ++ S
        = str "tcp" ++ bBang :: (H ++ bBang :: S) := by simp
    rw [h1, Split_append _ _ _ (by decide), Split_append _ _ _ hH, Split_of_not_mem _ _ hS]
  have hnet : str "tcp" ≠ str "net" := by decide
  have hmap : addrs.map (fun addr => csLine (str "tcp") addr port)
      = addrs.map (fun a => str "/net/tcp/clone " ++ a ++ str "!" ++ fmtInt port) :=
    List.map_congr_left (fun a ha => csLine_tcp a port (haddrs a ha))
  unfold csHandle.WriteAt
  simp only [hsplit, hnet, hport, hstar, hhost, hmap, if_false]

/-- C10 amended, at the write `tcp!example.org!9fs`. -/
theorem cs_tcp_query_lines_witness :
    csHandle.WriteAt osUp ⟨[]⟩ (str "tcp!example.org!9fs") =
      (⟨[] ++ [str "1.2.3.4"].map
          (fun a => str "/net/tcp/clone " ++ a ++ str "!" ++ fmtInt 564)⟩,
        [.LookupPort (str "tcp")
            (if str "9fs" = str "9fs" ∨ str "9fs" = str "9pfs" then str "564" else str "9fs"),
          .LookupHost (str "example.org")],
        (str "tcp!example.org!9fs").length, none) :=
  cs_tcp_query_lines osUp ⟨[]⟩ (str "tcp!example.org!9fs") (str "example.org") (str "9fs") 564
    [str "1.2.3.4"] (by decide) (by decide) (by decide) (by decide) (by decide) (by decide)
    (by decide)

/-- C11, as the code has it: from the queue `abc`, `de`, two reads into buffers
of one byte deliver `a` and `d`: the first read does not return the oldest entry
but its first byte, and the rest of the entry is gone. -/
theorem cs_read_truncates_entry :
    csHandle.reads ⟨[str "abc", str "de"]⟩ [[0], [0]] =
      (⟨[]⟩, [(str "a", 3), (str "d", 2)]) := by
  decide

/-- C11, amended: a read of an empty cs queue returns 0 bytes and leaves the
queue empty.  A read of a non-empty queue removes exactly the oldest entry and
copies into the read buffer as many of its first bytes as the buffer is long;
when the buffer is at least as long as the entry, the count returned is the
length of the entry and the bytes delivered are the whole entry.  So as many
reads as there are entries empty the queue, the i-th read serving the i-th entry
enqueued, and with buffers at least as long as the entries they deliver exactly
the enqueued responses, one per read and in order. -/
theorem cs_reads_in_order (q ps : List (List UInt8)) (hlen : ps.length = q.length) :
    (∀ p, csHandle.ReadAt ⟨[]⟩ p = (⟨[]⟩, p, 0)) ∧
    (∀ b rest p, (csHandle.ReadAt ⟨b :: rest⟩ p).1 = ⟨rest⟩ ∧
      (csHandle.ReadAt ⟨b :: rest⟩ p).2.1 = b.take p.length ++ p.drop b.length ∧
      (b.length ≤ p.length →
        (csHandle.ReadAt ⟨b :: rest⟩ p).2.2 = b.length ∧
        (csHandle.ReadAt ⟨b :: rest⟩ p).2.1.take b.length = b)) ∧
    (csHandle.reads ⟨q⟩ ps).1 = ⟨[]⟩ ∧
    (csHandle.reads ⟨q⟩ ps).2.map (fun r => r.1) =
      List.zipWith (fun b p => b.take p.length ++ p.drop b.length) q ps ∧
    (List.Forall₂ (fun b p => b.length ≤ p.length) q ps →
      (csHandle.reads ⟨q⟩ ps).2.map (fun r => r.1.take r.2) = q) := by
  refine ⟨fun p => rfl, fun b rest p => ⟨rfl, rfl, fun hb => ⟨rfl, ?_⟩⟩, ?_, ?_, ?_⟩
  · exact take_copy b p hb
  · rw [reads_eq q ps hlen]
  · rw [reads_eq q ps hlen]
    simp only [List.map_zipWith, copy]
  · intro hall
    rw [reads_eq q ps hlen]
    clear hlen
    induction hall with
    | nil => rfl
    | cons hb _ ih =>
      simp only at ih
      simp only [List.zipWith_cons_cons, List.map_cons, take_copy _ _ hb, ih]

/-- C11 amended, at a queue of two lines read with two buffers of 32 bytes: the
bytes delivered are the two lines. -/
theorem cs_reads_in_order_witness :
    (csHandle.reads ⟨[str "/net/tcp/clone 1.2.3.4!564", str "/net/tcp/clone 5.6.7.8!564"]⟩
        [List.replicate 32 0, List.replicate 32 0]).2.map (fun r => r.1.take r.2) =
      [str "/net/tcp/clone 1.2.3.4!564", str "/net/tcp/clone 5.6.7.8!564"] :=
  (cs_reads_in_order [str "/net/tcp/clone 1.2.3.4!564", str "/net/tcp/clone 5.6.7.8!564"]
    [List.replicate 32 0, List.replicate 32 0] (by decide)).2.2.2.2
    (List.Forall₂.cons (by decide) (List.Forall₂.cons (by decide) List.Forall₂.nil))

/-- C12: on a slot whose mutex is free, a `connect` write with at least one
argument returns an error, makes no OS call and leaves every field of the slot
as it was, whenever two positional arguments are given, or the first argument
does not split on `!` into exactly two parts, or the port part is not a decimal
numeral, or its value exceeds 65535. -/
theorem command_connect_rejects (os : OS) (c : Net9p.conn) (s arg0 : GoString)
    (rest : List GoString) (hfree : c.Mutex = false)
    (hsplit : Split (TrimSpace s) bSpace = str "connect" :: arg0 :: rest)
    (hbad : rest.length = 1 ∨ (Split arg0 bBang).length ≠ 2 ∨
      ∃ host P, Split arg0 bBang = [host, P] ∧ (¬ isNumeral P ∨ numeralValue P > 65535)) :
    ∃ err, c.command os s = ⟨c, [], .returned (some err)⟩ := by
  unfold conn.command
  simp only [hfree, hsplit, if_true, if_false, Bool.false_eq_true, List.length_cons]
  split
  · exact ⟨_, fail_free c hfree _⟩
  · rename_i hlen
    split
    · rename_i host portText haddr
      split
      · exact ⟨_, fail_free c hfree _⟩
      · rename_i port hparse
        have hok := ParseUint_ok portText port hparse
        split
        · exact ⟨_, fail_free c hfree _⟩
        · rename_i hport
          exfalso
          rcases hbad with h | h | ⟨host2, P, hP, h⟩
          · exact hlen (by rw [h])
          · exact h (by rw [haddr]; rfl)
          · rw [haddr] at hP
            simp only [List.cons.injEq, and_true] at hP
            rw [← hP.2] at h
            rcases h with h | h
            · exact h hok.1
            · rw [← hok.2] at h
              exact hport h
    · exact ⟨_, fail_free c hfree _⟩

/-- C12, at the write `connect 1.2.3.4!65536` on the first slot of `/net/tcp`. -/
theorem command_connect_rejects_witness :
    ∃ err, tcpSlot0.command osUp (str "connect 1.2.3.4!65536") =
      ⟨tcpSlot0, [], .returned (some err)⟩ :=
  command_connect_rejects osUp tcpSlot0 (str "connect 1.2.3.4!65536") (str "1.2.3.4!65536") []
    (by decide) (by decide)
    (Or.inr (Or.inr ⟨str "1.2.3.4", str "65536", by decide, Or.inr (by decide)⟩))

/-- C13: for every cs write whose trimmed payload is `F!A` with no `!` in `F` and
in `A`, `csHandle.WriteAt` returns the payload length and no error, makes no
lookup, and appends the one entry `/net/F/clone A` to the response queue. -/
theorem cs_two_tokens_pass_through (os : OS) (h : csHandle) (p F A : GoString)
    (hp : TrimSpace p = F ++ str "!" ++ A) (hF : bBang ∉ F) (hA : bBang ∉ A) :
    csHandle.WriteAt os h p =
      (⟨h.buf ++ [str "/net/" ++ F ++ str "/clone " ++ A]⟩, [], p.length, none) := by
  have hsplit : Split (TrimSpace p) bBang = [F, A] := by
    rw [hp, str_bang]
    have h1 : F ++ [bBang] ++ A = F ++ bBang :: A := by simp
    rw [h1, Split_append _ _ _ hF, Split_of_not_mem _ _ hA]
  unfold csHandle.WriteAt
  simp only [hsplit]

/-- C13, at the write `tcp!1.2.3.4:22`: the next read, into 64 bytes, returns the
25 bytes `/net/tcp/clone 1.2.3.4:22`. -/
theorem cs_two_tokens_pass_through_witness :
    csHandle.WriteAt osDown ⟨[]⟩ (str "tcp!1.2.3.4:22") =
      (⟨[] ++ [str "/net/" ++ str "tcp" ++ str "/clone " ++ str "1.2.3.4:22"]⟩, [],
        (str "tcp!1.2.3.4:22").length, none) ∧
    (((csHandle.WriteAt osDown ⟨[]⟩ (str "tcp!1.2.3.4:22")).1.ReadAt (List.replicate 64 0)).2.2
      = 25) ∧
    (((csHandle.WriteAt osDown ⟨[]⟩ (str "tcp!1.2.3.4:22")).1.ReadAt
      (List.replicate 64 0)).2.1.take 25 = str "/net/tcp/clone 1.2.3.4:22") :=
  ⟨cs_two_tokens_pass_through osDown ⟨[]⟩ (str "tcp!1.2.3.4:22") (str "tcp") (str "1.2.3.4:22")
    (by decide) (by decide) (by decide), by decide, by decide⟩

/-- C14: the ctl file that an allocation returns buffers the decimal digits of
the number `n` given to the slot; its first read, into a buffer at least as long
as these digits, returns their count and delivers exactly them. -/
theorem ctl_first_read_is_slot_number (h : TCPUDPHandler) (c : Option NetConn)
    (p : List UInt8) (hlen : (fmtUint (h.new c).2.curcnt).length ≤ p.length) :
    (h.new c).2.ctlfile.buf = fmtUint (h.new c).2.curcnt ∧
    ((h.new c).2.ctlfile.ReadAt p).2.2 = (fmtUint (h.new c).2.curcnt).length ∧
    ((h.new c).2.ctlfile.ReadAt p).2.1.take ((h.new c).2.ctlfile.ReadAt p).2.2 =
      fmtUint (h.new c).2.curcnt := by
  have hbuf : (h.new c).2.ctlfile.buf = fmtUint (h.new c).2.curcnt := by
    simp [TCPUDPHandler.new, ctlFile.response]
  have hmin : min (fmtUint (h.new c).2.curcnt).length p.length
      = (fmtUint (h.new c).2.curcnt).length := by omega
  rw [ctl_ReadAt_eq, hbuf, hmin]
  refine ⟨rfl, rfl, ?_⟩
  simp only [List.take_length, List.take_left]

/-- C14, at the first slot of `/net/tcp`, read into 8 bytes: the read returns the
one byte `0`. -/
theorem ctl_first_read_is_slot_number_witness :
    ((NewTCPDir.new none).2.ctlfile.ReadAt (List.replicate 8 0)).2.1.take
        ((NewTCPDir.new none).2.ctlfile.ReadAt (List.replicate 8 0)).2.2 =
      fmtUint (NewTCPDir.new none).2.curcnt ∧
    fmtUint (NewTCPDir.new none).2.curcnt = str "0" :=
  ⟨(ctl_first_read_is_slot_number NewTCPDir none (List.replicate 8 0) (by decide)).2.2,
    by decide⟩

/-- C16: for every cs write whose trimmed payload splits on `!` into a number of
tokens other than 2 and 3, `csHandle.WriteAt` returns the error `invalid query`,
makes no lookup and leaves the response queue as it was. -/
theorem cs_other_arity_rejected (os : OS) (h : csHandle) (p : GoString)
    (h2 : (Split (TrimSpace p) bBang).length ≠ 2) (h3 : (Split (TrimSpace p) bBang).length ≠ 3) :
    csHandle.WriteAt os h p = (h, [], p.length, some (.text (str "invalid query"))) := by
  simp only [csHandle.WriteAt]
  split
  · rename_i heq
    rw [heq] at h2
    exact absurd rfl h2
  · rename_i heq
    rw [heq] at h3
    exact absurd rfl h3
  · rfl

/-- C16, at the empty payload and at a payload of four tokens. -/
theorem cs_other_arity_rejected_witness :
    csHandle.WriteAt osUp ⟨[str "/net/tcp/clone 1.2.3.4!564"]⟩ (str "") =
      (⟨[str "/net/tcp/clone 1.2.3.4!564"]⟩, [], (str "").length,
        some (.text (str "invalid query"))) ∧
    csHandle.WriteAt osUp ⟨[]⟩ (str "tcp!a!b!c") =
      (⟨[]⟩, [], (str "tcp!a!b!c").length, some (.text (str "invalid query"))) :=
  ⟨cs_other_arity_rejected osUp ⟨[str "/net/tcp/clone 1.2.3.4!564"]⟩ (str "") (by decide)
    (by decide),
   cs_other_arity_rejected osUp ⟨[]⟩ (str "tcp!a!b!c") (by decide) (by decide)⟩

/-- C15: with the same answers of the OS, a cs write whose trimmed payload is
`net!H!9fs` or `net!H!9pfs` leaves the same response queue, makes the same
lookups and returns the same error as one whose trimmed payload is `tcp!H!564`. -/
theorem cs_net_9fs_like_tcp_564 (os : OS) (h : csHandle) (p1 p2 H : GoString)
    (hH : bBang ∉ H)
    (hp1 : TrimSpace p1 = str "net!" ++ H ++ str "!9fs" ∨
      TrimSpace p1 = str "net!" ++ H ++ str "!9pfs")
    (hp2 : TrimSpace p2 = str "tcp!" ++ H ++ str "!564") :
    (csHandle.WriteAt os h p1).1 = (csHandle.WriteAt os h p2).1 ∧
    (csHandle.WriteAt os h p1).2.1 = (csHandle.WriteAt os h p2).2.1 ∧
    (csHandle.WriteAt os h p1).2.2.2 = (csHandle.WriteAt os h p2).2.2.2 := by
  have hs2 : Split (TrimSpace p2) bBang = [str "tcp", H, str "564"] := by
    rw [hp2, str_tcp_bang, str_bang_564]
    exact Split_three _ _ _ (by decide) hH (by decide)
  have e1 : str "net" = str "net" := rfl
  have e2 : str "tcp" ≠ str "net" := by decide
  have e3 : str "564" ≠ str "9fs" := by decide
  have e4 : str "564" ≠ str "9pfs" := by decide
  have e5 : str "9pfs" ≠ str "9fs" := by decide
  rcases hp1 with hp1 | hp1
  · have hs1 : Split (TrimSpace p1) bBang = [str "net", H, str "9fs"] := by
      rw [hp1, str_net_bang, str_bang_9fs]
      exact Split_three _ _ _ (by decide) hH (by decide)
    simp only [csHandle.WriteAt, hs1, hs2, e2, e3, e4, if_true, if_false, true_or, or_self]
    repeat' split
    all_goals simp_all
  · have hs1 : Split (TrimSpace p1) bBang = [str "net", H, str "9pfs"] := by
      rw [hp1, str_net_bang, str_bang_9pfs]
      exact Split_three _ _ _ (by decide) hH (by decide)
    simp only [csHandle.WriteAt, hs1, hs2, e2, e3, e4, e5, if_true, if_false, or_true, or_self]
    repeat' split
    all_goals simp_all

/-- C15, at the host `example.org`. -/
theorem cs_net_9fs_like_tcp_564_witness :
    (csHandle.WriteAt osUp ⟨[]⟩ (str "net!example.org!9pfs")).1 =
      (csHandle.WriteAt osUp ⟨[]⟩ (str "tcp!example.org!564")).1 ∧
    (csHandle.WriteAt osUp ⟨[]⟩ (str "net!example.org!9pfs")).2.1 =
      (csHandle.WriteAt osUp ⟨[]⟩ (str "tcp!example.org!564")).2.1 ∧
    (csHandle.WriteAt osUp ⟨[]⟩ (str "net!example.org!9pfs")).2.2.2 =
      (csHandle.WriteAt osUp ⟨[]⟩ (str "tcp!example.org!564")).2.2.2 :=
  cs_net_9fs_like_tcp_564 osUp ⟨[]⟩ (str "net!example.org!9pfs") (str "tcp!example.org!564")
    (str "example.org") (by decide) (Or.inr (by decide)) (by decide)

/-- C17, as the code has it: a slot that was announced and then dialled is
`Established`, not `Announcing`, and still holds its listener; a listen walk on
it accepts a connection and allocates a new slot for it. -/
theorem listen_accepts_when_established :
    announcedDialledSlot.state = stateEstablished ∧ stateEstablished ≠ stateAnnouncing ∧
    (announcedDialledSlot.listen osUp).trace = [.Accept ⟨7⟩] ∧
    (announcedDialledSlot.listen osUp).ret = .returned (.ok ⟨2, true, false⟩) ∧
    (TCPUDPHandler.listenHook osUp (NewTCPDir.new none).1 announcedDialledSlot).1.cnt = 2 ∧
    (TCPUDPHandler.listenHook osUp (NewTCPDir.new none).1 announcedDialledSlot).2.2 =
      some (.ok ((NewTCPDir.new none).1.new (some ⟨2, true, false⟩)).2) := by
  decide

/-- C17, amended: the listen walk is decided by the listener of the slot, not by
its state (the slot's mutex free).  When the listener is absent the walk returns
the error `not announced` without calling `Accept` and without allocating a
slot: the slot and the handler are as before; a newly allocated slot has no
listener.  When a listener is present, whatever the state, the walk calls
`Accept` on it once; if that succeeds a new slot is allocated for the accepted
socket, and if it fails the error of `Accept` is returned and no slot is
allocated. -/
theorem listen_decided_by_listener (os : OS) (h : TCPUDPHandler) (c : Net9p.conn)
    (hfree : c.Mutex = false) :
    (c.listener = none →
      c.listen os = ⟨c, [], .returned (.error (.text (str "not announced")))⟩ ∧
      TCPUDPHandler.listenHook os h c =
        (h, ⟨c, [], .returned (.error (.text (str "not announced")))⟩,
          some (.error (.text (str "not announced"))))) ∧
    (∀ sock, (h.new sock).2.conn.listener = none) ∧
    (∀ l, c.listener = some l →
      (c.listen os).trace = [.Accept l] ∧ (c.listen os).slot = c ∧
      (∀ nc, os.Accept l = .ok nc →
        TCPUDPHandler.listenHook os h c =
          ((h.new (some nc)).1, ⟨c, [.Accept l], .returned (.ok nc)⟩,
            some (.ok (h.new (some nc)).2))) ∧
      (∀ err, os.Accept l = .error err →
        TCPUDPHandler.listenHook os h c =
          (h, ⟨c, [.Accept l], .returned (.error err)⟩, some (.error err)))) := by
  cases c with
  | mk m sock lis nw a cp ow st =>
    simp only at hfree
    subst hfree
    refine ⟨?_, ?_, ?_⟩
    · intro hl
      simp only at hl
      subst hl
      simp [TCPUDPHandler.listenHook, conn.listen, conn.Unlock]
    · intro x
      cases x <;> simp [TCPUDPHandler.new]
    · intro l hl
      simp only at hl
      subst hl
      refine ⟨?_, ?_, ?_, ?_⟩
      · cases hacc : os.Accept l <;> simp [conn.listen, conn.Unlock, hacc]
      · cases hacc : os.Accept l <;> simp [conn.listen, conn.Unlock, hacc]
      · intro nc hacc
        simp [TCPUDPHandler.listenHook, conn.listen, conn.Unlock, hacc]
      · intro err hacc
        simp [TCPUDPHandler.listenHook, conn.listen, conn.Unlock, hacc]

/-- C17 amended, on the first slot of `/net/tcp`, which has no listener, and on
the slot that was announced and then dialled, which is `Established` and holds
the listener 7. -/
theorem listen_decided_by_listener_witness :
    TCPUDPHandler.listenHook osUp (NewTCPDir.new none).1 tcpSlot0 =
      ((NewTCPDir.new none).1, ⟨tcpSlot0, [], .returned (.error (.text (str "not announced")))⟩,
        some (.error (.text (str "not announced")))) ∧
    (announcedDialledSlot.listen osUp).trace = [.Accept ⟨7⟩] :=
  ⟨((listen_decided_by_listener osUp (NewTCPDir.new none).1 tcpSlot0 (by decide)).1
      (by decide)).2,
    ((listen_decided_by_listener osUp (NewTCPDir.new none).1 announcedDialledSlot
      (by decide)).2.2 ⟨7⟩ (by decide)).1⟩

/-- C18: on a slot whose mutex is free, a `keepalive` write with any arguments
returns the error `keepalive only valid on tcp connections`, makes no OS call
and leaves the slot as it was, when the socket is absent or is not a TCP
connection; a slot cloned under `/net/udp` has no socket.  When the socket is a
TCP connection, a `keepalive` write with more than one argument returns the
error `invalid arguments` and leaves the slot as it was. -/
theorem command_keepalive_rejects (os : OS) (c : Net9p.conn) (s : GoString)
    (args : List GoString) (hfree : c.Mutex = false)
    (hsplit : Split (TrimSpace s) bSpace = str "keepalive" :: args) :
    ((c.conn = none ∨ ∃ sock, c.conn = some sock ∧ sock.isTCP = false) →
      c.command os s =
        ⟨c, [], .returned (some (.text (str "keepalive only valid on tcp connections")))⟩) ∧
    ((∃ sock, c.conn = some sock ∧ sock.isTCP = true) → 2 ≤ args.length →
      c.command os s = ⟨c, [], .returned (some (.text (str "invalid arguments")))⟩) ∧
    (NewUDPDir.new none).2.conn.conn = none := by
  cases c with
  | mk m sock0 l nw a cp ow st =>
    simp only at hfree
    subst hfree
    refine ⟨?_, ?_, rfl⟩
    · intro hsock
      unfold conn.command
      simp only [hsplit, keepalive_ne, if_true, if_false, Bool.false_eq_true]
      rcases hsock with hnone | ⟨sock, hsome, hudp⟩
      · simp only at hnone
        subst hnone
        simp [conn.fail, conn.Unlock]
      · simp only at hsome
        subst hsome
        simp [hudp, conn.fail, conn.Unlock]
    · intro ⟨sock, hsome, htcp⟩ hlen
      simp only at hsome
      subst hsome
      unfold conn.command
      simp only [hsplit, keepalive_ne, if_true, if_false, Bool.false_eq_true]
      match args, hlen with
      | a :: b :: rest, _ => simp [htcp, conn.fail, conn.Unlock]

/-- C18, at the write `keepalive` on the first slot cloned under `/net/udp`. -/
theorem command_keepalive_rejects_witness :
    udpSlot0.command osUp (str "keepalive") =
      ⟨udpSlot0, [], .returned (some (.text (str "keepalive only valid on tcp connections")))⟩ :=
  (command_keepalive_rejects osUp udpSlot0 (str "keepalive") [] (by decide) (by decide)).1
    (Or.inl (by decide))

/-- C19: on a slot whose mutex is free, a write whose first token is not one of
`connect`, `announce`, `accept`, `keepalive`, `hangup`, `reject` returns the
error whose message is `Unimplemented command received: ` followed by the
trimmed text of the write, makes no OS call, and leaves every field of the slot
as it was. -/
theorem command_unimplemented (os : OS) (c : Net9p.conn) (s cmd : GoString)
    (args : List GoString) (hfree : c.Mutex = false)
    (hsplit : Split (TrimSpace s) bSpace = cmd :: args)
    (hcmd : cmd ∉ implementedCommands) :
    c.command os s =
      ⟨c, [], .returned (some (.text (str "Unimplemented command received: " ++ TrimSpace s)))⟩ ∧
    List.IsInfix (TrimSpace s) (str "Unimplemented command received: " ++ TrimSpace s) := by
  constructor
  · simp only [implementedCommands, List.mem_cons, List.mem_singleton, not_or,
      List.not_mem_nil, or_false] at hcmd
    obtain ⟨h1, h2, h3, h4, h5, h6⟩ := hcmd
    unfold conn.command
    simp only [hfree, hsplit, h1, h2, h3, h4, h5, h6, if_false, Bool.false_eq_true, or_self]
    exact fail_free c hfree _
  · exact (List.suffix_append _ _).isInfix

/-- C19, at the write `bind 1.2.3.4!80` on the first slot of `/net/tcp`. -/
theorem command_unimplemented_witness :
    tcpSlot0.command osUp (str " bind 1.2.3.4!80\n") =
      ⟨tcpSlot0, [], .returned (some (.text
        (str "Unimplemented command received: " ++ TrimSpace (str " bind 1.2.3.4!80\n"))))⟩ ∧
    TrimSpace (str " bind 1.2.3.4!80\n") = str "bind 1.2.3.4!80" :=
  ⟨(command_unimplemented osUp tcpSlot0 (str " bind 1.2.3.4!80\n") (str "bind")
    [str "1.2.3.4!80"] (by decide) (by decide) (by decide)).1, by decide⟩

/-- C20: on a slot whose mutex is free, a write whose first token is `hangup` or
`reject` never returns: `conn.command` holds the slot mutex when it invokes
`conn.hangup`, which waits for that same mutex.  The slot is left with its
mutex held and nothing else changed. -/
theorem command_hangup_blocks (os : OS) (c : Net9p.conn) (s : GoString) (args : List GoString)
    (hfree : c.Mutex = false)
    (hsplit : Split (TrimSpace s) bSpace = str "hangup" :: args ∨
      Split (TrimSpace s) bSpace = str "reject" :: args) :
    c.command os s = ⟨{ c with Mutex := true }, [.hangup], .blocked⟩ := by
  rcases hsplit with hsplit | hsplit
  · unfold conn.command
    simp only [hfree, hsplit, hangup_ne, if_true, if_false, Bool.false_eq_true, true_or,
      conn.hangup]
  · unfold conn.command
    simp only [hfree, hsplit, reject_ne, if_true, if_false, Bool.false_eq_true, or_true,
      conn.hangup]

/-- C20, at the write `hangup` on the slot that was dialled. -/
theorem command_hangup_blocks_witness :
    (connectedSlot.dial osUp).slot.command osUp (str "hangup") =
      ⟨{ (connectedSlot.dial osUp).slot with Mutex := true }, [.hangup], .blocked⟩ :=
  command_hangup_blocks osUp (connectedSlot.dial osUp).slot (str "hangup") [] (by decide)
    (Or.inl (by decide))

/-- C21: a cs queue holding the 26 bytes `/net/tcp/clone 1.2.3.4!564`, read into
a buffer of 8 bytes: `csHandle.ReadAt` reports 26 bytes read, more than the
buffer holds, though only the first 8 were copied, and the entry is gone from
the queue. -/
theorem cs_read_reports_more_than_copied :
    (List.replicate 8 (0 : UInt8)).length = 8 ∧
    csHandle.ReadAt ⟨[str "/net/tcp/clone 1.2.3.4!564"]⟩ (List.replicate 8 0) =
      (⟨[]⟩, str "/net/tcp", 26) := by
  decide

/-- C22: take a three-token cs query with family `fam` and service `svc` after
the coercions, whose port lookup gives `p`, at most 65535, and whose resolved
addresses are `addrs`, and take one of them, `A`, not empty and with no space
and no `!`.  Then `csHandle.WriteAt` enqueues the line `/net/fam/clone A!p`;
`IP.clone` takes the address `A!p` out of that line (when `fam` has no space and
no `/`); and the write `connect A!p` of `IPConn.dial`, on a slot whose mutex is
free, is accepted by `conn.command`: no error, address `A:p`, `connectPending`
set, nothing else changed. -/
theorem cs_response_accepted_by_connect (os os2 : OS) (h : csHandle) (c : Net9p.conn)
    (q F H S fam svc A : GoString) (p : Nat) (addrs : List GoString)
    (hq : Split (TrimSpace q) bBang = [F, H, S])
    (hfam : fam = if F = str "net" then str "tcp" else F)
    (hsvc : svc = if S = str "9fs" ∨ S = str "9pfs" then str "564" else S)
    (hport : os.LookupPort fam svc = .ok (p : Int))
    (hhost : (if H = str "*" then Except.ok [[]] else os.LookupHost H) = .ok addrs)
    (hA : A ∈ addrs) (hne : A ≠ []) (hsp : bSpace ∉ A) (hbang : bBang ∉ A)
    (hp : p ≤ 65535) (hfree : c.Mutex = false) :
    str "/net/" ++ fam ++ str "/clone " ++ (A ++ str "!" ++ fmtUint p) ∈
      (csHandle.WriteAt os h q).1.buf ∧
    (bSpace ∉ fam → bSlash ∉ fam →
      cloneAddr (str "/net/" ++ fam ++ str "/clone " ++ (A ++ str "!" ++ fmtUint p)) =
        .ok (A ++ str "!" ++ fmtUint p)) ∧
    c.command os2 (dialWrite (A ++ str "!" ++ fmtUint p)) =
      ⟨{ c with address := A ++ str ":" ++ fmtUint p, connectPending := true },
        [], .returned none⟩ := by
  have hnum := fmtUint_numeral p
  have hspP : bSpace ∉ fmtUint p := not_mem_numeral _ hnum.1 bSpace (by decide)
  have hline : csLine fam A (p : Int) =
      str "/net/" ++ fam ++ str "/clone " ++ (A ++ str "!" ++ fmtUint p) := by
    unfold csLine
    rw [if_neg hne, fmtInt_natCast]
  have hbuf : (csHandle.WriteAt os h q).1.buf = h.buf ++ addrs.map (fun a => csLine fam a p) := by
    simp only [csHandle.WriteAt, hq, ← hfam, ← hsvc, hport]
    by_cases hstar : H = str "*"
    · simp only [hstar, if_true] at hhost ⊢
      cases hhost
      rfl
    · simp only [hstar, if_false] at hhost ⊢
      rw [hhost]
  refine ⟨?_, ?_, ?_⟩
  · rw [hbuf, ← hline]
    exact List.mem_append_right _ (List.mem_map_of_mem _ hA)
  · intro hfsp hfsl
    have hfield : bSpace ∉ A ++ str "!" ++ fmtUint p := by
      rw [str_bang]
      simp only [List.mem_append, List.mem_singleton, not_or]
      exact ⟨⟨hsp, by decide⟩, hspP⟩
    have hx0 : bSpace ∉ str "/net/" ++ fam ++ str "/clone" := by
      simp only [List.mem_append, not_or]
      exact ⟨⟨by decide, hfsp⟩, by decide⟩
    have hsplit : Split (str "/net/" ++ fam ++ str "/clone " ++ (A ++ str "!" ++ fmtUint p))
        bSpace = [str "/net/" ++ fam ++ str "/clone", A ++ str "!" ++ fmtUint p] := by
      have e : str "/net/" ++ fam ++ str "/clone " ++ (A ++ str "!" ++ fmtUint p)
          = (str "/net/" ++ fam ++ str "/clone") ++ bSpace :: (A ++ str "!" ++ fmtUint p) := by
        rw [str_clone_sp]
        simp
      rw [e, Split_append _ _ _ hx0, Split_of_not_mem _ _ hfield]
    have hpath : Split (str "/net/" ++ fam ++ str "/clone") bSlash
        = [[], str "net", fam, str "clone"] := by
      have e : str "/net/" ++ fam ++ str "/clone"
          = [] ++ bSlash :: (str "net" ++ bSlash :: (fam ++ bSlash :: str "clone")) := by
        rw [str_net_path, str_clone_path]
        simp
      rw [e, Split_append _ _ _ (by simp), Split_append _ _ _ (by decide),
        Split_append _ _ _ hfsl, Split_of_not_mem _ _ (by decide)]
    unfold cloneAddr
    simp only [hsplit, hpath]
    simp
  · have hs : TrimSpace (dialWrite (A ++ str "!" ++ fmtUint p))
        = str "connect " ++ A ++ str "!" ++ fmtUint p := by
      have e : dialWrite (A ++ str "!" ++ fmtUint p)
          = str "connect " ++ (A ++ str "!") ++ fmtUint p := by
        simp [dialWrite]
      rw [e, TrimSpace_connect _ _ hnum.1]
      simp
    have hcmd := command_connect_sets_address_aux os2 c _ A (fmtUint p) hfree hs hsp hbang
      hnum.1 (by rw [hnum.2]; exact hp)
    rw [hnum.2] at hcmd
    exact hcmd

/-- C22, at the query `net!example.org!9fs`, answered with the address `1.2.3.4`
and the port 564, and the first slot of `/net/tcp`. -/
theorem cs_response_accepted_by_connect_witness :
    tcpSlot0.command osDown (dialWrite (str "1.2.3.4" ++ str "!" ++ fmtUint 564)) =
      ⟨{ tcpSlot0 with address := str "1.2.3.4" ++ str ":" ++ fmtUint 564,
                       connectPending := true }, [], .returned none⟩ :=
  (cs_response_accepted_by_connect osUp osDown ⟨[]⟩ tcpSlot0 (str "net!example.org!9fs")
    (str "net") (str "example.org") (str "9fs") (str "tcp") (str "564") (str "1.2.3.4") 564
    [str "1.2.3.4"] (by decide) (by decide) (by decide) (by decide) (by decide) (by decide)
    (by decide) (by decide) (by decide) (by decide) (by decide)).2.2

end Net9p
